import Mathlib

/-
Verification of the financial ledger and cash-flow engine of the repository
(src/login/financeiro.py, class SistemaFinanceiro) against its specification.

Numeric model.  Python floats are IEEE-754 binary64 values and Python Decimal
values are decimal fractions; every number that appears in this development
(record amounts, float sums, Decimal sums under the default 28-digit context,
and the shortest-representation decimals produced by str(float)) is an exact
rational whose denominator divides D = 10^60 * 2^120.  We therefore represent
every numeric value v by the integer v * D (a fixed-point encoding), which
makes all arithmetic exact integer arithmetic and lets the kernel evaluate it.
Binary64 rounding and Decimal context rounding are modelled explicitly as
integer algorithms (round to nearest, ties to even).  The model covers the
magnitude range [2^-120, 2^2000], amply containing every currency value
considered here; infinities, NaNs and extreme subnormals do not arise.
-/

namespace SGC

/-- Integer power, structurally recursive so that the kernel can evaluate it. -/
def ipow (b : ℤ) : ℕ → ℤ
  | 0 => 1
  | n + 1 => b * ipow b n

/-- Fuel-based floor of the base-B logarithm on naturals (0 for n < B). -/
def logBF (B : ℕ) : ℕ → ℕ → ℕ
  | 0, _ => 0
  | f + 1, n => if n < B then 0 else logBF B f (n / B) + 1

def nlog2 (n : ℕ) : ℕ := logBF 2 1000 n

def nlog10 (n : ℕ) : ℕ := logBF 10 1000 n

/-- Global fixed-point scale: every numeric value v in this development is
represented by the integer v * D. -/
def D : ℤ := ipow 10 60 * ipow 2 120

/-- The fixed-point representation of the decimal value c * 10^k (k ≥ -60). -/
def fxDec (c : ℤ) (k : ℤ) : ℤ := c * ipow 10 (k + 60).toNat * ipow 2 120

/-- The fixed-point representation of the dyadic value m * 2^e (e ≥ -180). -/
def fxDy (m : ℤ) (e : ℤ) : ℤ := m * ipow 2 (e + 180).toNat * ipow 5 60

/-- Round the rational n / d (with d > 0) to the nearest integer, ties to even. -/
def divRNE (n d : ℤ) : ℤ :=
  let q := Int.fdiv n d
  let r := Int.fmod n d
  if 2 * r < d then q else if d < 2 * r then q + 1 else if q % 2 = 0 then q else q + 1

/-- Binary exponent of the positive fixed-point value n: the unique e with
2^e ≤ n/D < 2^(e+1), computed from an integer log2 estimate plus one
correction step (the estimate is off by at most one). -/
def fxExp2 (n : ℤ) : ℤ :=
  let e0 : ℤ := (nlog2 n.toNat : ℤ) - (nlog2 D.toNat : ℤ)
  let ok : Bool :=
    if 0 ≤ e0 then decide (ipow 2 e0.toNat * D ≤ n) else decide (D ≤ n * ipow 2 (-e0).toNat)
  if ok then e0 else e0 - 1

/-- Decimal exponent of the positive fixed-point value n: the unique e with
10^e ≤ n/D < 10^(e+1). -/
def fxExp10 (n : ℤ) : ℤ :=
  let e0 : ℤ := (nlog10 n.toNat : ℤ) - (nlog10 D.toNat : ℤ)
  let ok : Bool :=
    if 0 ≤ e0 then decide (ipow 10 e0.toNat * D ≤ n) else decide (D ≤ n * ipow 10 (-e0).toNat)
  if ok then e0 else e0 - 1

/-- IEEE-754 binary64 rounding (round to nearest, ties to even) of a positive
fixed-point value: scale into the 53-bit significand window, round, scale back. -/
def fpRoundPos (n : ℤ) : ℤ :=
  let e := fxExp2 n
  let m :=
    if 0 ≤ 52 - e then divRNE (n * ipow 2 (52 - e).toNat) D
    else divRNE n (D * ipow 2 (e - 52).toNat)
  if 0 ≤ e - 52 then m * ipow 2 (e - 52).toNat * D
  else Int.fdiv (m * D) (ipow 2 (52 - e).toNat)

/-- IEEE-754 binary64 rounding of a fixed-point value. -/
def fpRound (n : ℤ) : ℤ :=
  if n = 0 then 0 else if 0 < n then fpRoundPos n else -fpRoundPos (-n)

/-- Python float addition: exact sum followed by binary64 rounding. -/
def fpAdd (x y : ℤ) : ℤ := fpRound (x + y)

/-- Python float subtraction: exact difference followed by binary64 rounding. -/
def fpSub (x y : ℤ) : ℤ := fpRound (x - y)

/-- Python sum() over floats: left fold of float addition starting from int 0
(adding a float to integer 0 is exact, so the start behaves as float 0.0). -/
def pyFloatSum (l : List ℤ) : ℤ := l.foldl fpAdd 0

/-- Round a positive fixed-point value to p significant decimal digits, ties
to even (the rounding step of Python Decimal arithmetic, whose default context
carries 28 significant digits). -/
def roundSigPos (p : ℕ) (n : ℤ) : ℤ :=
  let e := fxExp10 n
  let s : ℤ := (p : ℤ) - 1 - e
  let m :=
    if 0 ≤ s then divRNE (n * ipow 10 s.toNat) D
    else divRNE n (D * ipow 10 (-s).toNat)
  if 0 ≤ e - (p : ℤ) + 1 then m * ipow 10 (e - (p : ℤ) + 1).toNat * D
  else Int.fdiv (m * D) (ipow 10 ((p : ℤ) - 1 - e).toNat)

/-- Signed rounding to p significant decimal digits, ties to even. -/
def roundSig (p : ℕ) (n : ℤ) : ℤ :=
  if n = 0 then 0 else if 0 < n then roundSigPos p n else -roundSigPos p (-n)

/-- Python Decimal addition under the default context (28 significant digits,
ROUND_HALF_EVEN). -/
def decAdd (a b : ℤ) : ℤ := roundSig 28 (a + b)

/-- Python Decimal subtraction under the default context. -/
def decSub (a b : ℤ) : ℤ := roundSig 28 (a - b)

/-- Decimal(str(v)) for a double v: the shortest decimal (fewest significant
digits, correctly rounded) that reads back as the double v, which is the value
CPython repr prints for a float.  Searches digit counts 1..17; 17 digits
always round-trip for an actual double, so the fallback is unreachable then. -/
def decRead (v : ℤ) : ℤ :=
  match (List.range 17).find? (fun k => decide (fpRound (roundSig (k + 1) v) = v)) with
  | some k => roundSig (k + 1) v
  | none => v

/-- The double denoted by a decimal literal c * 10^k in Python source or JSON. -/
def pyFloat (c k : ℤ) : ℤ := fpRound (fxDec c k)

/-- The Decimal accumulation performed by the cash-flow functions:
total = total + Decimal(str(valor)) over a list of stored float amounts. -/
def decSumValores (l : List ℤ) : ℤ := l.foldl (fun a v => decAdd a (decRead v)) 0

/- ----------------------------------------------------------------- -/
/- Calendar model (proleptic Gregorian, as Python datetime.date).     -/
/- ----------------------------------------------------------------- -/

/-- A calendar date as carried by Python datetime.date. -/
structure Date where
  y : ℕ
  m : ℕ
  d : ℕ
deriving DecidableEq, Repr

/-- Gregorian leap-year test (as in CPython datetime). -/
def isLeap (y : ℕ) : Bool := (y % 4 == 0 && y % 100 != 0) || y % 400 == 0

/-- Days in a month (0 for an out-of-range month number). -/
def daysInMonth (y m : ℕ) : ℕ :=
  match m with
  | 1 => 31 | 2 => if isLeap y then 29 else 28 | 3 => 31 | 4 => 30 | 5 => 31
  | 6 => 30 | 7 => 31 | 8 => 31 | 9 => 30 | 10 => 31 | 11 => 30 | 12 => 31
  | _ => 0

/-- Cumulative days before month m in a non-leap year (the CPython
_days_before_month table). -/
def daysBeforeMonthTab (m : ℕ) : ℕ :=
  match m with
  | 1 => 0 | 2 => 31 | 3 => 59 | 4 => 90 | 5 => 120 | 6 => 151
  | 7 => 181 | 8 => 212 | 9 => 243 | 10 => 273 | 11 => 304 | 12 => 334
  | _ => 365

/-- Days before month m in year y. -/
def daysBeforeMonth (y m : ℕ) : ℕ :=
  daysBeforeMonthTab m + (if 2 < m && isLeap y then 1 else 0)

/-- Python date.toordinal: day number with 0001-01-01 as day 1.  Python
compares dates exactly as their ordinals compare, and date subtraction in
days is ordinal subtraction, so all date comparisons in the embedding go
through this function. -/
def ordDate : Date → ℕ
  | ⟨y, m, d⟩ =>
    365 * (y - 1) + (y - 1) / 4 - (y - 1) / 100 + (y - 1) / 400 + daysBeforeMonth y m + d

/- ----------------------------------------------------------------- -/
/- String and date-string parsing model.                              -/
/- ----------------------------------------------------------------- -/

/-- ASCII decimal digit test on a character. -/
def isDigitCh (c : Char) : Bool := 48 ≤ c.toNat && c.toNat ≤ 57

/-- Value of a big-endian list of decimal digit characters. -/
def digitsVal (cs : List Char) : ℕ := cs.foldl (fun a c => 10 * a + (c.toNat - 48)) 0

/-- Split a character list at every dash, mirroring the shape that the
strptime format "%Y-%m-%d" imposes on its input. -/
def splitDash : List Char → List (List Char)
  | [] => [[]]
  | c :: rest =>
    if c = '-' then [] :: splitDash rest
    else
      match splitDash rest with
      | h :: t => (c :: h) :: t
      | [] => [[c]]

/-- Parse an all-digit field whose width lies within the given bounds. -/
def parseField (cs : List Char) (wmin wmax : ℕ) : Option ℕ :=
  if wmin ≤ cs.length ∧ cs.length ≤ wmax ∧ cs.all isDigitCh then some (digitsVal cs)
  else none

/-- Model of datetime.strptime(s, "%Y-%m-%d") followed by .date(): the year
field takes exactly four digits, month and day take one or two digits, and the
resulting components must form a valid calendar date (years 1..9999); any
failure yields none where Python raises ValueError. -/
def parseDate (s : String) : Option Date :=
  match splitDash s.data with
  | [ys, ms, ds] =>
    match parseField ys 4 4, parseField ms 1 2, parseField ds 1 2 with
    | some y, some m, some dd =>
      if 1 ≤ y ∧ y ≤ 9999 ∧ 1 ≤ m ∧ m ≤ 12 ∧ 1 ≤ dd ∧ dd ≤ daysInMonth y m then
        some ⟨y, m, dd⟩
      else none
    | _, _, _ => none
  | _ => none

/-- validar_data: date-format validation via strptime (financeiro.py:132). -/
def validar_data (s : String) : Bool := (parseDate s).isSome

/-- Lexicographic strict comparison of character lists by code point,
the order Python uses to compare strings. -/
def strLtb : List Char → List Char → Bool
  | [], [] => false
  | [], _ :: _ => true
  | _ :: _, [] => false
  | a :: as, b :: bs => if a < b then true else if b < a then false else strLtb as bs

/-- ASCII lower-casing of one character (str.lower on the ASCII range). -/
def lowerCh (c : Char) : Char :=
  if 65 ≤ c.toNat ∧ c.toNat ≤ 90 then Char.ofNat (c.toNat + 32) else c

/-- ASCII model of str.lower. -/
def lowerStr (s : String) : List Char := s.data.map lowerCh

/-- Python substring containment (needle in hay) on character lists. -/
def containsSub (hay needle : List Char) : Bool :=
  hay.tails.any (fun t => needle.isPrefixOf t)

/-- Stable insertion of x into a list sorted by the strict order lt:
x goes before the first element not strictly below it. -/
def insertSorted (lt : α → α → Bool) (x : α) : List α → List α
  | [] => [x]
  | y :: ys => if lt y x then y :: insertSorted lt x ys else x :: y :: ys

/-- Stable ascending sort by the strict order lt, the result Python
sorted() produces for a total key order. -/
def sortBy (lt : α → α → Bool) : List α → List α
  | [] => []
  | x :: xs => insertSorted lt x (sortBy lt xs)

/- ----------------------------------------------------------------- -/
/- Data model (financeiro.py record dictionaries and the store).      -/
/- ----------------------------------------------------------------- -/

/-- A payable record (conta a pagar), as built by cadastrar_conta_pagar
(financeiro.py:194-209).  The valor field holds the stored Python float in
fixed-point units; a record loaded from JSON without an ativo key behaves as
ativo = true, so the flag is modelled as a plain boolean. -/
structure ContaPagar where
  id : String
  descricao : String
  categoria : String
  valor : ℤ
  data_vencimento : String
  status : String
  status_vencimento : String
  fornecedor : String
  observacoes : String
  data_cadastro : String
  usuario_cadastro : String
  data_pagamento : Option String
  usuario_pagamento : Option String
  ativo : Bool
deriving DecidableEq, Repr

/-- A receivable record (conta a receber), financeiro.py:255-270. -/
structure ContaReceber where
  id : String
  cliente : String
  descricao : String
  categoria : String
  valor : ℤ
  data_vencimento : String
  status : String
  status_vencimento : String
  observacoes : String
  data_cadastro : String
  usuario_cadastro : String
  data_recebimento : Option String
  usuario_recebimento : Option String
  ativo : Bool
deriving DecidableEq, Repr

/-- The in-memory state of SistemaFinanceiro: the two record collections and
the key sets of the two category namespaces.  Every mutating operation writes
the whole collection back to its JSON file immediately (salvar_contas_*), so
the persisted file always holds exactly these lists. -/
structure Sistema where
  contas_pagar : List ContaPagar
  contas_receber : List ContaReceber
  categorias_pagar : List String
  categorias_receber : List String
deriving DecidableEq, Repr

/- ----------------------------------------------------------------- -/
/- Id generation (gerar_id_conta, financeiro.py:103-130).             -/
/- ----------------------------------------------------------------- -/

/-- Big-endian decimal digit characters of a natural number. -/
def natDigits (n : ℕ) : List Char :=
  if n = 0 then ['0'] else (Nat.digits 10 n).reverse.map (fun d => Char.ofNat (48 + d))

/-- Left-pad a digit list with zeros to the given width. -/
def padZeros (w : ℕ) (ds : List Char) : List Char := List.replicate (w - ds.length) '0' ++ ds

/-- Python format f-string {n:03d}: zero-padded to overall width 3, the sign
counting toward the width. -/
def fmt03d (n : ℤ) : String :=
  if 0 ≤ n then ⟨padZeros 3 (natDigits n.toNat)⟩ else ⟨'-' :: padZeros 2 (natDigits (-n).toNat)⟩

/-- Python int() applied to an id suffix: an optional minus sign followed by
decimal digits (int also tolerates surrounding whitespace and underscores,
which cannot appear in ids this system builds). -/
def parseIntCh (cs : List Char) : Option ℤ :=
  match cs with
  | [] => none
  | c :: rest =>
    if c = '-' then
      if rest ≠ [] ∧ rest.all isDigitCh then some (-(digitsVal rest : ℤ)) else none
    else if (c :: rest).all isDigitCh then some ((digitsVal (c :: rest) : ℤ)) else none

/-- The scan of gerar_id_conta: numeric suffixes (characters after position 2)
of the ids that carry the kind prefix, unparseable suffixes skipped
(financeiro.py:115-123). -/
def suffixList (prefixo : String) (ids : List String) : List ℤ :=
  ids.filterMap (fun i =>
    if prefixo.data.isPrefixOf i.data then parseIntCh (i.data.drop 2) else none)

/-- Python max() on a nonempty list given as head and tail. -/
def listMax : ℤ → List ℤ → ℤ
  | x, [] => x
  | x, y :: ys => listMax (max x y) ys

/-- gerar_id_conta on the id list of the chosen collection: empty collection
gives prefix001, otherwise the maximal parsed suffix plus one (1 when no id
parses), rendered with {:03d} (financeiro.py:103-130). -/
def gerarFromIds (prefixo : String) (ids : List String) : String :=
  if ids = [] then prefixo ++ "001"
  else
    prefixo ++
      fmt03d (match suffixList prefixo ids with | [] => 1 | x :: xs => listMax x xs + 1)

/-- gerar_id_conta: kind "pagar" scans the payables under prefix CP, any other
kind scans the receivables under prefix CR. -/
def gerar_id_conta (s : Sistema) (tipo : String) : String :=
  if tipo = "pagar" then gerarFromIds "CP" (s.contas_pagar.map (·.id))
  else gerarFromIds "CR" (s.contas_receber.map (·.id))

/- ----------------------------------------------------------------- -/
/- Due-status resolver (calcular_status_vencimento, financeiro.py:140-155). -/
/- ----------------------------------------------------------------- -/

/-- calcular_status_vencimento: parse the due date (any failure is caught and
becomes data_invalida), then classify against the reference date hoje, which
the Python code takes from datetime.now().  Python date comparison and
day-difference are ordinal comparison and subtraction. -/
def calcular_status_vencimento (data_vencimento : String) (hoje : Date) : String :=
  match parseDate data_vencimento with
  | none => "data_invalida"
  | some dv =>
    if ordDate dv < ordDate hoje then "atrasado"
    else if ordDate dv = ordDate hoje then "vencendo_hoje"
    else if (ordDate dv : ℤ) - (ordDate hoje : ℤ) ≤ 7 then "vencendo_em_breve"
    else "no_prazo"

/- ----------------------------------------------------------------- -/
/- Registration (cadastrar_conta_pagar / cadastrar_conta_receber).    -/
/- ----------------------------------------------------------------- -/

/-- cadastrar_conta_pagar (financeiro.py:161-220).  Rejections (empty
description or category, non-positive amount, unknown category, invalid due
date) return none; success appends the new record and returns its id.  The
parameters hoje and agora stand for datetime.now() and time.strftime. -/
def cadastrar_conta_pagar (s : Sistema) (descricao categoria : String) (valor : ℤ)
    (data_vencimento fornecedor observacoes usuario : String)
    (hoje : Date) (agora : String) : Option (String × Sistema) :=
  if descricao.data = [] ∨ categoria.data = [] ∨ valor ≤ 0 then none
  else if categoria ∉ s.categorias_pagar then none
  else if validar_data data_vencimento = false then none
  else
    let conta_id := gerar_id_conta s "pagar"
    let conta : ContaPagar := {
      id := conta_id, descricao := descricao, categoria := categoria, valor := valor,
      data_vencimento := data_vencimento, status := "pendente",
      status_vencimento := calcular_status_vencimento data_vencimento hoje,
      fornecedor := fornecedor, observacoes := observacoes,
      data_cadastro := agora, usuario_cadastro := usuario,
      data_pagamento := none, usuario_pagamento := none, ativo := true }
    some (conta_id, { s with contas_pagar := s.contas_pagar ++ [conta] })

/-- cadastrar_conta_receber (financeiro.py:222-282), additionally requiring a
nonempty client name. -/
def cadastrar_conta_receber (s : Sistema) (cliente descricao categoria : String) (valor : ℤ)
    (data_vencimento observacoes usuario : String)
    (hoje : Date) (agora : String) : Option (String × Sistema) :=
  if cliente.data = [] ∨ descricao.data = [] ∨ categoria.data = [] ∨ valor ≤ 0 then none
  else if categoria ∉ s.categorias_receber then none
  else if validar_data data_vencimento = false then none
  else
    let conta_id := gerar_id_conta s "receber"
    let conta : ContaReceber := {
      id := conta_id, cliente := cliente, descricao := descricao, categoria := categoria,
      valor := valor, data_vencimento := data_vencimento, status := "pendente",
      status_vencimento := calcular_status_vencimento data_vencimento hoje,
      observacoes := observacoes, data_cadastro := agora, usuario_cadastro := usuario,
      data_recebimento := none, usuario_recebimento := none, ativo := true }
    some (conta_id, { s with contas_receber := s.contas_receber ++ [conta] })

/- ----------------------------------------------------------------- -/
/- Listing and search (financeiro.py:284-396).                        -/
/- ----------------------------------------------------------------- -/

/-- The recompute-on-read step of the listing operations: refresh the derived
due-status of a record. -/
def atualizaVencPagar (hoje : Date) (c : ContaPagar) : ContaPagar :=
  { c with status_vencimento := calcular_status_vencimento c.data_vencimento hoje }

def atualizaVencReceber (hoje : Date) (c : ContaReceber) : ContaReceber :=
  { c with status_vencimento := calcular_status_vencimento c.data_vencimento hoje }

/-- listar_contas_pagar (financeiro.py:284-315): skip inactive records,
refresh the due-status of every active record (a mutation that is saved),
apply the optional exact-match filters, and return the matches sorted by due
date (stable ascending, as Python sorted).  The filter arguments model the
default None; Python also treats an empty filter string as absent. -/
def listar_contas_pagar (s : Sistema) (hoje : Date) (status categoria : Option String) :
    List ContaPagar × Sistema :=
  let atualizadas := s.contas_pagar.map (fun c => if c.ativo then atualizaVencPagar hoje c else c)
  let filtradas := atualizadas.filter (fun c =>
    c.ativo && (match status with | some f => c.status == f | none => true)
            && (match categoria with | some f => c.categoria == f | none => true))
  (sortBy (fun a b => strLtb a.data_vencimento.data b.data_vencimento.data) filtradas,
   { s with contas_pagar := atualizadas })

/-- listar_contas_receber (financeiro.py:317-348). -/
def listar_contas_receber (s : Sistema) (hoje : Date) (status categoria : Option String) :
    List ContaReceber × Sistema :=
  let atualizadas := s.contas_receber.map (fun c => if c.ativo then atualizaVencReceber hoje c else c)
  let filtradas := atualizadas.filter (fun c =>
    c.ativo && (match status with | some f => c.status == f | none => true)
            && (match categoria with | some f => c.categoria == f | none => true))
  (sortBy (fun a b => strLtb a.data_vencimento.data b.data_vencimento.data) filtradas,
   { s with contas_receber := atualizadas })

/-- buscar_conta_pagar (financeiro.py:350-372): case-insensitive substring
match of the term against id, description and supplier; active records only. -/
def buscar_conta_pagar (s : Sistema) (termo : String) : List ContaPagar :=
  let t := lowerStr termo
  s.contas_pagar.filter (fun c =>
    c.ativo && (containsSub (lowerStr c.id) t || containsSub (lowerStr c.descricao) t
                || containsSub (lowerStr c.fornecedor) t))

/-- buscar_conta_receber (financeiro.py:374-396): matches id, client and
description. -/
def buscar_conta_receber (s : Sistema) (termo : String) : List ContaReceber :=
  let t := lowerStr termo
  s.contas_receber.filter (fun c =>
    c.ativo && (containsSub (lowerStr c.id) t || containsSub (lowerStr c.cliente) t
                || containsSub (lowerStr c.descricao) t))

/- ----------------------------------------------------------------- -/
/- Settlement (registrar_pagamento / registrar_recebimento).          -/
/- ----------------------------------------------------------------- -/

/-- The matching loop of registrar_pagamento (financeiro.py:411-439) on the
payables list: none when no active record carries the id (the final not-found
branch); some none when the first active match is already paid or the payment
date fails validation (returns False with nothing changed); some (some l)
with the updated list on success.  The date defaults to today when absent
(Python also treats an empty string as absent). -/
def regPagAux (conta_id : String) (dpag : Option String) (hojeStr usuario : String) :
    List ContaPagar → Option (Option (List ContaPagar))
  | [] => none
  | c :: rest =>
    if c.id = conta_id ∧ c.ativo then
      if c.status == "pago" then some none
      else
        let dataPg := dpag.getD hojeStr
        if validar_data dataPg then
          let c2 := { c with status := "pago", data_pagamento := some dataPg,
                             usuario_pagamento := some usuario, status_vencimento := "pago" }
          some (some (c2 :: rest))
        else some none
    else (regPagAux conta_id dpag hojeStr usuario rest).map (Option.map (c :: ·))

/-- registrar_pagamento: True plus the saved updated store on success, False
with the store untouched on any failure. -/
def registrar_pagamento (s : Sistema) (conta_id : String) (dpag : Option String)
    (hojeStr usuario : String) : Bool × Sistema :=
  match regPagAux conta_id dpag hojeStr usuario s.contas_pagar with
  | none => (false, s)
  | some none => (false, s)
  | some (some l) => (true, { s with contas_pagar := l })

/-- The matching loop of registrar_recebimento (financeiro.py:454-483). -/
def regRecAux (conta_id : String) (drec : Option String) (hojeStr usuario : String) :
    List ContaReceber → Option (Option (List ContaReceber))
  | [] => none
  | c :: rest =>
    if c.id = conta_id ∧ c.ativo then
      if c.status == "recebido" then some none
      else
        let dataRc := drec.getD hojeStr
        if validar_data dataRc then
          let c2 := { c with status := "recebido", data_recebimento := some dataRc,
                             usuario_recebimento := some usuario, status_vencimento := "recebido" }
          some (some (c2 :: rest))
        else some none
    else (regRecAux conta_id drec hojeStr usuario rest).map (Option.map (c :: ·))

/-- registrar_recebimento (financeiro.py:441-483). -/
def registrar_recebimento (s : Sistema) (conta_id : String) (drec : Option String)
    (hojeStr usuario : String) : Bool × Sistema :=
  match regRecAux conta_id drec hojeStr usuario s.contas_receber with
  | none => (false, s)
  | some none => (false, s)
  | some (some l) => (true, { s with contas_receber := l })

/- ----------------------------------------------------------------- -/
/- Soft deletion (excluir_conta_pagar / excluir_conta_receber).       -/
/- ----------------------------------------------------------------- -/

/-- The matching loop of excluir_conta_pagar (financeiro.py:676-681): the
first record that carries the id AND is still active gets its flag cleared;
none when no such record exists. -/
def excluirPagAux : List ContaPagar → String → Option (List ContaPagar)
  | [], _ => none
  | c :: rest, i =>
    if c.id = i ∧ c.ativo then some ({ c with ativo := false } :: rest)
    else (excluirPagAux rest i).map (c :: ·)

/-- excluir_conta_pagar: soft deletion; True plus the saved store on success,
False with the store untouched when no active record carries the id. -/
def excluir_conta_pagar (s : Sistema) (conta_id : String) : Bool × Sistema :=
  match excluirPagAux s.contas_pagar conta_id with
  | some l => (true, { s with contas_pagar := l })
  | none => (false, s)

def excluirRecAux : List ContaReceber → String → Option (List ContaReceber)
  | [], _ => none
  | c :: rest, i =>
    if c.id = i ∧ c.ativo then some ({ c with ativo := false } :: rest)
    else (excluirRecAux rest i).map (c :: ·)

/-- excluir_conta_receber (financeiro.py:686-705). -/
def excluir_conta_receber (s : Sistema) (conta_id : String) : Bool × Sistema :=
  match excluirRecAux s.contas_receber conta_id with
  | some l => (true, { s with contas_receber := l })
  | none => (false, s)

/- ----------------------------------------------------------------- -/
/- Period aggregator (relatorio_financeiro, financeiro.py:485-611).   -/
/- ----------------------------------------------------------------- -/

/-- The due-date window test of relatorio_financeiro: a record passes when its
due-date string is not below data_inicio (when given) nor above data_fim (when
given); Python compares the YYYY-MM-DD strings lexicographically. -/
def dentroPeriodo (d1 d2 : Option String) (dv : String) : Bool :=
  (match d1 with | some a => !(strLtb dv.data a.data) | none => true) &&
  (match d2 with | some b => !(strLtb b.data dv.data) | none => true)

/-- The period filter of relatorio_financeiro (financeiro.py:496-521): when at
least one bound is given, keep the active records inside the window; when no
bound is given the collection is taken whole, inactive records included. -/
def relFiltroPagar (s : Sistema) (d1 d2 : Option String) : List ContaPagar :=
  if d1.isSome || d2.isSome then
    s.contas_pagar.filter (fun c => c.ativo && dentroPeriodo d1 d2 c.data_vencimento)
  else s.contas_pagar

def relFiltroReceber (s : Sistema) (d1 d2 : Option String) : List ContaReceber :=
  if d1.isSome || d2.isSome then
    s.contas_receber.filter (fun c => c.ativo && dentroPeriodo d1 d2 c.data_vencimento)
  else s.contas_receber

/-- Per-category payable bucket of the report: float totals for all, paid and
not-paid records of the category (financeiro.py:559). -/
structure CatPagarTot where
  total : ℤ
  pago : ℤ
  pendente : ℤ
deriving DecidableEq, Repr

/-- Per-category receivable bucket (financeiro.py:570). -/
structure CatReceberTot where
  total : ℤ
  recebido : ℤ
  pendente : ℤ
deriving DecidableEq, Repr

/-- One update of a payable category bucket (financeiro.py:560-564): the
amount joins the total, and the paid bucket when status is pago, otherwise
the pendente bucket. -/
def catUpdPagar (t : CatPagarTot) (c : ContaPagar) : CatPagarTot :=
  let t1 := { t with total := fpAdd t.total c.valor }
  if c.status == "pago" then { t1 with pago := fpAdd t1.pago c.valor }
  else { t1 with pendente := fpAdd t1.pendente c.valor }

def catUpdReceber (t : CatReceberTot) (c : ContaReceber) : CatReceberTot :=
  let t1 := { t with total := fpAdd t.total c.valor }
  if c.status == "recebido" then { t1 with recebido := fpAdd t1.recebido c.valor }
  else { t1 with pendente := fpAdd t1.pendente c.valor }

/-- One step of the per-category analysis (financeiro.py:555-564): inactive
records are skipped; a fresh zero bucket is appended for a category seen for
the first time (Python dict insertion order), then the bucket is updated. -/
def catStepPagar (m : List (String × CatPagarTot)) (c : ContaPagar) :
    List (String × CatPagarTot) :=
  if c.ativo then
    let m1 := if m.any (fun p => p.1 == c.categoria) then m else m ++ [(c.categoria, ⟨0, 0, 0⟩)]
    m1.map (fun p => if p.1 == c.categoria then (p.1, catUpdPagar p.2 c) else p)
  else m

def catStepReceber (m : List (String × CatReceberTot)) (c : ContaReceber) :
    List (String × CatReceberTot) :=
  if c.ativo then
    let m1 := if m.any (fun p => p.1 == c.categoria) then m else m ++ [(c.categoria, ⟨0, 0, 0⟩)]
    m1.map (fun p => if p.1 == c.categoria then (p.1, catUpdReceber p.2 c) else p)
  else m

/-- The resumo block of the report (financeiro.py:578-589), all float sums. -/
structure Resumo where
  total_pagar : ℤ
  total_receber : ℤ
  total_pago : ℤ
  total_recebido : ℤ
  total_pagar_pendente : ℤ
  total_receber_pendente : ℤ
  total_pagar_atrasado : ℤ
  total_receber_atrasado : ℤ
  saldo : ℤ
  saldo_futuro : ℤ
deriving DecidableEq, Repr

/-- The record counters of the report (financeiro.py:590-601); liquidadas is
the field called pagas for payables and recebidas for receivables. -/
structure ContagemContas where
  total : ℕ
  pendentes : ℕ
  liquidadas : ℕ
  atrasadas : ℕ
deriving DecidableEq, Repr

/-- The report of relatorio_financeiro (financeiro.py:577-611); the echoed
input dates and the generation timestamp are presentation fields and are not
modelled. -/
structure Relatorio where
  resumo : Resumo
  contas_pagar_info : ContagemContas
  contas_receber_info : ContagemContas
  categorias_pagar : List (String × CatPagarTot)
  categorias_receber : List (String × CatReceberTot)
  atrasadas_pagar : List ContaPagar
  atrasadas_receber : List ContaReceber
deriving DecidableEq, Repr

/-- relatorio_financeiro (financeiro.py:485-611).  All monetary totals are
Python float sums (left folds of binary64 addition over the generated values,
starting from int 0); the per-category analysis also accumulates with float
addition.  A sum over a comprehension with a guard is the fold over the
filtered list, in collection order. -/
def relatorio_financeiro (s : Sistema) (d1 d2 : Option String) : Relatorio :=
  let cpf := relFiltroPagar s d1 d2
  let crf := relFiltroReceber s d1 d2
  let total_pagar := pyFloatSum ((cpf.filter (·.ativo)).map (·.valor))
  let total_receber := pyFloatSum ((crf.filter (·.ativo)).map (·.valor))
  let total_pago :=
    pyFloatSum ((cpf.filter (fun c => c.ativo && c.status == "pago")).map (·.valor))
  let total_recebido :=
    pyFloatSum ((crf.filter (fun c => c.ativo && c.status == "recebido")).map (·.valor))
  let total_pagar_pendente :=
    pyFloatSum ((cpf.filter (fun c => c.ativo && c.status == "pendente")).map (·.valor))
  let total_receber_pendente :=
    pyFloatSum ((crf.filter (fun c => c.ativo && c.status == "pendente")).map (·.valor))
  let atras_p := cpf.filter (fun c => c.ativo && c.status_vencimento == "atrasado")
  let atras_r := crf.filter (fun c => c.ativo && c.status_vencimento == "atrasado")
  { resumo := {
      total_pagar := total_pagar
      total_receber := total_receber
      total_pago := total_pago
      total_recebido := total_recebido
      total_pagar_pendente := total_pagar_pendente
      total_receber_pendente := total_receber_pendente
      total_pagar_atrasado := pyFloatSum (atras_p.map (·.valor))
      total_receber_atrasado := pyFloatSum (atras_r.map (·.valor))
      saldo := fpSub total_recebido total_pago
      saldo_futuro := fpSub total_receber total_pagar }
    contas_pagar_info := {
      total := cpf.length
      pendentes := (cpf.filter (fun c => c.ativo && c.status == "pendente")).length
      liquidadas := (cpf.filter (fun c => c.ativo && c.status == "pago")).length
      atrasadas := atras_p.length }
    contas_receber_info := {
      total := crf.length
      pendentes := (crf.filter (fun c => c.ativo && c.status == "pendente")).length
      liquidadas := (crf.filter (fun c => c.ativo && c.status == "recebido")).length
      atrasadas := atras_r.length }
    categorias_pagar := cpf.foldl catStepPagar []
    categorias_receber := crf.foldl catStepReceber []
    atrasadas_pagar := atras_p
    atrasadas_receber := atras_r }

/- ----------------------------------------------------------------- -/
/- Cash-flow reconstructor (financeiro.py:707-932).                   -/
/- ----------------------------------------------------------------- -/

/-- The daily cash-flow report (financeiro.py:750-764): transaction lists,
Decimal totals together with their float conversions (the code returns
float(total)), counts and the day balance.  float(Decimal) is the correctly
rounded double, i.e. fpRound. -/
structure FluxoDia where
  data : String
  entradas : List ContaReceber
  total_entradas_dec : ℤ
  total_entradas : ℤ
  qtd_entradas : ℕ
  saidas : List ContaPagar
  total_saidas_dec : ℤ
  total_saidas : ℤ
  qtd_saidas : ℕ
  saldo_dia_dec : ℤ
  saldo_dia : ℤ
deriving DecidableEq, Repr

/-- Result of fluxo_caixa_diario: the error dictionary or the report. -/
inductive FluxoDiaRes where
  | erro (msg : String)
  | ok (r : FluxoDia)
deriving DecidableEq, Repr

/-- fluxo_caixa_diario (financeiro.py:707-764): reject an invalid date;
inflows are the active received receivables whose settlement-date string
equals the queried date, outflows the active paid payables likewise; totals
accumulate Decimal(str(valor)); the day balance is the Decimal difference.
The function reads the store only. -/
def fluxo_caixa_diario (s : Sistema) (data : String) : FluxoDiaRes :=
  if validar_data data = false then .erro "Data inválida"
  else
    let entradas := s.contas_receber.filter (fun c =>
      c.ativo && c.status == "recebido" && c.data_recebimento == some data)
    let tE := decSumValores (entradas.map (·.valor))
    let saidas := s.contas_pagar.filter (fun c =>
      c.ativo && c.status == "pago" && c.data_pagamento == some data)
    let tS := decSumValores (saidas.map (·.valor))
    let saldoDec := decSub tE tS
    .ok { data := data, entradas := entradas, total_entradas_dec := tE,
          total_entradas := fpRound tE, qtd_entradas := entradas.length,
          saidas := saidas, total_saidas_dec := tS, total_saidas := fpRound tS,
          qtd_saidas := saidas.length, saldo_dia_dec := saldoDec,
          saldo_dia := fpRound saldoDec }

/-- Settlement-date window test of the monthly and range cash flows: parse the
stored settlement-date string (a missing field reads as the empty string) and
require the date to lie in the closed ordinal interval; parse failures are
caught and the record skipped (financeiro.py:797-803). -/
def dataNoIntervalo (inicio fim : ℕ) (ds : Option String) : Bool :=
  match parseDate (ds.getD "") with
  | some d => decide (inicio ≤ ordDate d) && decide (ordDate d ≤ fim)
  | none => false

/-- One step of the per-category Decimal bucketing of the monthly cash flow
(financeiro.py:828-838). -/
def catDecStep (m : List (String × ℤ)) (cat : String) (v : ℤ) : List (String × ℤ) :=
  let m1 := if m.any (fun p => p.1 == cat) then m else m ++ [(cat, 0)]
  m1.map (fun p => if p.1 == cat then (p.1, decAdd p.2 (decRead v)) else p)

/-- The monthly cash-flow report (financeiro.py:840-860); the month name and
the formatted date strings are presentation fields, the window is carried here
as the pair of ordinals the filter compares against. -/
structure FluxoMes where
  ano : ℕ
  mes : ℕ
  inicio_ord : ℕ
  fim_ord : ℕ
  entradas : List ContaReceber
  total_entradas_dec : ℤ
  total_entradas : ℤ
  qtd_entradas : ℕ
  por_categoria_entradas : List (String × ℤ)
  saidas : List ContaPagar
  total_saidas_dec : ℤ
  total_saidas : ℤ
  qtd_saidas : ℕ
  por_categoria_saidas : List (String × ℤ)
  saldo_mes_dec : ℤ
  saldo_mes : ℤ
deriving DecidableEq, Repr

/-- fluxo_caixa_mensal (financeiro.py:766-860): the window runs from the first
of the month to the first of the next month minus one day (December rolls the
year over); settled active records whose parsed settlement date lies in the
window are collected, their Decimal totals and per-category Decimal buckets
computed, and the buckets returned as floats.  Defined for 1 ≤ mes ≤ 12 and
1 ≤ ano, where datetime(ano, mes, 1) is constructible. -/
def fluxo_caixa_mensal (s : Sistema) (ano mes : ℕ) : FluxoMes :=
  let inicio := ordDate ⟨ano, mes, 1⟩
  let fim := (if mes == 12 then ordDate ⟨ano + 1, 1, 1⟩ else ordDate ⟨ano, mes + 1, 1⟩) - 1
  let entradas := s.contas_receber.filter (fun c =>
    c.ativo && c.status == "recebido" && dataNoIntervalo inicio fim c.data_recebimento)
  let tE := decSumValores (entradas.map (·.valor))
  let saidas := s.contas_pagar.filter (fun c =>
    c.ativo && c.status == "pago" && dataNoIntervalo inicio fim c.data_pagamento)
  let tS := decSumValores (saidas.map (·.valor))
  let saldoDec := decSub tE tS
  { ano := ano, mes := mes, inicio_ord := inicio, fim_ord := fim,
    entradas := entradas, total_entradas_dec := tE, total_entradas := fpRound tE,
    qtd_entradas := entradas.length,
    por_categoria_entradas :=
      (entradas.foldl (fun m c => catDecStep m c.categoria c.valor) []).map
        (fun p => (p.1, fpRound p.2)),
    saidas := saidas, total_saidas_dec := tS, total_saidas := fpRound tS,
    qtd_saidas := saidas.length,
    por_categoria_saidas :=
      (saidas.foldl (fun m c => catDecStep m c.categoria c.valor) []).map
        (fun p => (p.1, fpRound p.2)),
    saldo_mes_dec := saldoDec, saldo_mes := fpRound saldoDec }

/-- The range cash-flow report (financeiro.py:917-932). -/
structure FluxoPeriodo where
  data_inicio : String
  data_fim : String
  entradas : List ContaReceber
  total_entradas_dec : ℤ
  total_entradas : ℤ
  qtd_entradas : ℕ
  saidas : List ContaPagar
  total_saidas_dec : ℤ
  total_saidas : ℤ
  qtd_saidas : ℕ
  saldo_periodo_dec : ℤ
  saldo_periodo : ℤ
deriving DecidableEq, Repr

/-- Result of fluxo_caixa_periodo: the error dictionary or the report. -/
inductive FluxoPeriodoRes where
  | erro (msg : String)
  | ok (r : FluxoPeriodo)
deriving DecidableEq, Repr

/-- fluxo_caixa_periodo (financeiro.py:862-932): both bounds must validate
(else the invalid-date error dictionary), the start must not exceed the end
(else the domain-error dictionary), and otherwise the same settlement-date
window filter as the monthly flow runs over the explicit closed range.  The
function reads the store only and never mutates it. -/
def fluxo_caixa_periodo (s : Sistema) (data_inicio data_fim : String) : FluxoPeriodoRes :=
  match parseDate data_inicio, parseDate data_fim with
  | some di, some df =>
    if ordDate df < ordDate di then .erro "Data inicial maior que data final"
    else
      let entradas := s.contas_receber.filter (fun c =>
        c.ativo && c.status == "recebido" &&
          dataNoIntervalo (ordDate di) (ordDate df) c.data_recebimento)
      let tE := decSumValores (entradas.map (·.valor))
      let saidas := s.contas_pagar.filter (fun c =>
        c.ativo && c.status == "pago" &&
          dataNoIntervalo (ordDate di) (ordDate df) c.data_pagamento)
      let tS := decSumValores (saidas.map (·.valor))
      let saldoDec := decSub tE tS
      .ok { data_inicio := data_inicio, data_fim := data_fim,
            entradas := entradas, total_entradas_dec := tE, total_entradas := fpRound tE,
            qtd_entradas := entradas.length,
            saidas := saidas, total_saidas_dec := tS, total_saidas := fpRound tS,
            qtd_saidas := saidas.length,
            saldo_periodo_dec := saldoDec, saldo_periodo := fpRound saldoDec }
  | _, _ => .erro "Data inválida"

/- ----------------------------------------------------------------- -/
/- Concrete example records used by witnesses and counterexamples.    -/
/- ----------------------------------------------------------------- -/

/-- A concrete payable: rent of 1500.00 due 2024-03-05, pending, active. -/
def cpRent : ContaPagar :=
  { id := "CP001", descricao := "Aluguel mensal", categoria := "aluguel",
    valor := pyFloat 15 2, data_vencimento := "2024-03-05", status := "pendente",
    status_vencimento := "atrasado", fornecedor := "Imobiliaria", observacoes := "",
    data_cadastro := "2024-03-01 10:00:00", usuario_cadastro := "sistema",
    data_pagamento := none, usuario_pagamento := none, ativo := true }

/-- A concrete receivable: a sale of 250.00 due 2024-03-08, pending, active. -/
def crSale : ContaReceber :=
  { id := "CR001", cliente := "Cliente A", descricao := "Venda balcao",
    categoria := "venda", valor := pyFloat 25 1, data_vencimento := "2024-03-08",
    status := "pendente", status_vencimento := "atrasado", observacoes := "",
    data_cadastro := "2024-03-01 10:00:00", usuario_cadastro := "sistema",
    data_recebimento := none, usuario_recebimento := none, ativo := true }

/-- The default category keys seeded by inicializar_categorias_padrao. -/
def catPagarPadrao : List String :=
  ["aluguel", "internet", "energia", "agua", "fornecedor", "imposto", "salario",
   "manutencao", "marketing", "outros"]

def catReceberPadrao : List String :=
  ["venda", "servico", "comissao", "aluguel_recebido", "investimento",
   "outros_recebimentos"]

/- ----------------------------------------------------------------- -/
/- C4: the due-status resolver.                                       -/
/- ----------------------------------------------------------------- -/

/-- C4: calcular_status_vencimento is total — every input string yields one of
the five statuses and malformed input yields data_invalida — and for a
parseable due date it returns atrasado when due is before the reference date,
vencendo_hoje when equal, vencendo_em_breve when the difference in whole days
is between 1 and 7, and no_prazo beyond 7 days. -/
theorem C4_resolver_total_and_correct (sVenc : String) (hoje : Date) :
    (calcular_status_vencimento sVenc hoje = "atrasado" ∨
     calcular_status_vencimento sVenc hoje = "vencendo_hoje" ∨
     calcular_status_vencimento sVenc hoje = "vencendo_em_breve" ∨
     calcular_status_vencimento sVenc hoje = "no_prazo" ∨
     calcular_status_vencimento sVenc hoje = "data_invalida") ∧
    (parseDate sVenc = none → calcular_status_vencimento sVenc hoje = "data_invalida") ∧
    ∀ dv, parseDate sVenc = some dv →
      ((ordDate dv < ordDate hoje → calcular_status_vencimento sVenc hoje = "atrasado") ∧
       (ordDate dv = ordDate hoje → calcular_status_vencimento sVenc hoje = "vencendo_hoje") ∧
       (0 < (ordDate dv : ℤ) - (ordDate hoje : ℤ) ∧ (ordDate dv : ℤ) - (ordDate hoje : ℤ) ≤ 7 →
          calcular_status_vencimento sVenc hoje = "vencendo_em_breve") ∧
       (7 < (ordDate dv : ℤ) - (ordDate hoje : ℤ) →
          calcular_status_vencimento sVenc hoje = "no_prazo")) := by
  have hnone : parseDate sVenc = none →
      calcular_status_vencimento sVenc hoje = "data_invalida" := by
    intro h
    unfold calcular_status_vencimento
    rw [h]
  have hsome : ∀ dv, parseDate sVenc = some dv →
      calcular_status_vencimento sVenc hoje =
        if ordDate dv < ordDate hoje then "atrasado"
        else if ordDate dv = ordDate hoje then "vencendo_hoje"
        else if (ordDate dv : ℤ) - (ordDate hoje : ℤ) ≤ 7 then "vencendo_em_breve"
        else "no_prazo" := by
    intro dv h
    unfold calcular_status_vencimento
    rw [h]
  refine ⟨?_, hnone, ?_⟩
  · cases h : parseDate sVenc with
    | none => exact Or.inr (Or.inr (Or.inr (Or.inr (hnone h))))
    | some dv =>
      rw [hsome dv h]
      by_cases h1 : ordDate dv < ordDate hoje
      · simp [h1]
      · by_cases h2 : ordDate dv = ordDate hoje
        · simp [h1, h2]
        · by_cases h3 : (ordDate dv : ℤ) - (ordDate hoje : ℤ) ≤ 7
          · simp [h1, h2, h3]
          · simp [h1, h2, h3]
  · intro dv h
    refine ⟨?_, ?_, ?_, ?_⟩
    · intro hlt
      rw [hsome dv h, if_pos hlt]
    · intro heq
      rw [hsome dv h, if_neg (by omega), if_pos heq]
    · rintro ⟨hpos, hle⟩
      rw [hsome dv h, if_neg (by omega), if_neg (by omega), if_pos hle]
    · intro hgt
      rw [hsome dv h, if_neg (by omega), if_neg (by omega), if_neg (by omega)]

/-- Witness for C4 at concrete inputs: all five statuses are realized, with
the reference date 2024-03-10. -/
theorem C4_witness :
    calcular_status_vencimento "2024-03-05" ⟨2024, 3, 10⟩ = "atrasado" ∧
    calcular_status_vencimento "2024-03-10" ⟨2024, 3, 10⟩ = "vencendo_hoje" ∧
    calcular_status_vencimento "2024-03-15" ⟨2024, 3, 10⟩ = "vencendo_em_breve" ∧
    calcular_status_vencimento "2024-03-30" ⟨2024, 3, 10⟩ = "no_prazo" ∧
    calcular_status_vencimento "not-a-date" ⟨2024, 3, 10⟩ = "data_invalida" := by
  refine ⟨?_, ?_, ?_, ?_, ?_⟩
  · exact ((C4_resolver_total_and_correct "2024-03-05" ⟨2024, 3, 10⟩).2.2
      ⟨2024, 3, 5⟩ (by decide)).1 (by decide)
  · exact (((C4_resolver_total_and_correct "2024-03-10" ⟨2024, 3, 10⟩).2.2
      ⟨2024, 3, 10⟩ (by decide)).2.1 (by decide))
  · exact (((C4_resolver_total_and_correct "2024-03-15" ⟨2024, 3, 10⟩).2.2
      ⟨2024, 3, 15⟩ (by decide)).2.2.1 (by decide))
  · exact (((C4_resolver_total_and_correct "2024-03-30" ⟨2024, 3, 10⟩).2.2
      ⟨2024, 3, 30⟩ (by decide)).2.2.2 (by decide))
  · exact (C4_resolver_total_and_correct "not-a-date" ⟨2024, 3, 10⟩).2.1 (by decide)

/- ----------------------------------------------------------------- -/
/- C7: range cash flow with start after end.                          -/
/- ----------------------------------------------------------------- -/

/-- C7: for valid dates with start after end, fluxo_caixa_periodo returns the
domain-error result (never an ok result, hence never an empty success); the
function is read-only on the store by construction. -/
theorem C7_range_domain_error (s : Sistema) (d1 d2 : String) (di df : Date)
    (h1 : parseDate d1 = some di) (h2 : parseDate d2 = some df)
    (hgt : ordDate df < ordDate di) :
    fluxo_caixa_periodo s d1 d2 = .erro "Data inicial maior que data final" ∧
    ∀ r, fluxo_caixa_periodo s d1 d2 ≠ .ok r := by
  have hmain : fluxo_caixa_periodo s d1 d2 = .erro "Data inicial maior que data final" := by
    unfold fluxo_caixa_periodo
    rw [h1, h2]
    simp [hgt]
  exact ⟨hmain, fun r hr => by rw [hmain] at hr; exact FluxoPeriodoRes.noConfusion hr⟩

/-- Witness for C7: the empty store with the range 2024-03-10 .. 2024-03-01. -/
theorem C7_witness :
    fluxo_caixa_periodo ⟨[], [], catPagarPadrao, catReceberPadrao⟩ "2024-03-10" "2024-03-01"
      = .erro "Data inicial maior que data final" :=
  (C7_range_domain_error _ "2024-03-10" "2024-03-01" ⟨2024, 3, 10⟩ ⟨2024, 3, 1⟩
    (by decide) (by decide) (by decide)).1

/- ----------------------------------------------------------------- -/
/- C9: repeated deactivation.                                         -/
/- ----------------------------------------------------------------- -/

/-- excluirPagAux finds nothing when every record carrying the id is already
inactive. -/
theorem excluirPagAux_none (l : List ContaPagar) (i : String)
    (h : ∀ c ∈ l, c.id = i → c.ativo = false) : excluirPagAux l i = none := by
  induction l with
  | nil => rfl
  | cons c rest ih =>
    unfold excluirPagAux
    rw [if_neg, ih (fun d hd hdi => h d (List.mem_cons_of_mem _ hd) hdi)]
    · rfl
    · rintro ⟨hid, hat⟩
      rw [h c (List.mem_cons_self _ _) hid] at hat
      exact Bool.false_ne_true hat

/-- excluirRecAux finds nothing when every record carrying the id is already
inactive. -/
theorem excluirRecAux_none (l : List ContaReceber) (i : String)
    (h : ∀ c ∈ l, c.id = i → c.ativo = false) : excluirRecAux l i = none := by
  induction l with
  | nil => rfl
  | cons c rest ih =>
    unfold excluirRecAux
    rw [if_neg, ih (fun d hd hdi => h d (List.mem_cons_of_mem _ hd) hdi)]
    · rfl
    · rintro ⟨hid, hat⟩
      rw [h c (List.mem_cons_self _ _) hid] at hat
      exact Bool.false_ne_true hat

/-- C9 counterexample: deactivating CP001 succeeds once, and the repeated call
on the resulting store returns False — not the silent success the claim
asserts. -/
theorem C9_counterexample :
    (excluir_conta_pagar ⟨[cpRent], [], catPagarPadrao, catReceberPadrao⟩ "CP001").1 = true ∧
    (excluir_conta_pagar
      (excluir_conta_pagar ⟨[cpRent], [], catPagarPadrao, catReceberPadrao⟩ "CP001").2
      "CP001").1 = false := by
  constructor
  · rfl
  · rfl

/-- C9 amended: deactivating an id all of whose records are already inactive
returns False — the branch that prints Conta nao encontrada — and leaves the
whole store untouched, exactly as for a nonexistent id; same for receivables. -/
theorem C9_repeat_deactivate_fails (s : Sistema) (i : String)
    (hp : ∀ c ∈ s.contas_pagar, c.id = i → c.ativo = false)
    (hr : ∀ c ∈ s.contas_receber, c.id = i → c.ativo = false) :
    excluir_conta_pagar s i = (false, s) ∧ excluir_conta_receber s i = (false, s) := by
  constructor
  · unfold excluir_conta_pagar
    rw [excluirPagAux_none s.contas_pagar i hp]
  · unfold excluir_conta_receber
    rw [excluirRecAux_none s.contas_receber i hr]

/-- Witness for C9: a store holding only the already-deactivated CP001. -/
theorem C9_witness :
    excluir_conta_pagar ⟨[{ cpRent with ativo := false }], [], catPagarPadrao, catReceberPadrao⟩
      "CP001"
      = (false, ⟨[{ cpRent with ativo := false }], [], catPagarPadrao, catReceberPadrao⟩) :=
  (C9_repeat_deactivate_fails _ "CP001"
    (by intro c hc hid; simp only [List.mem_singleton] at hc; rw [hc])
    (by intro c hc hid; simp at hc)).1

/- ----------------------------------------------------------------- -/
/- C10: settlement on soft-deleted records.                           -/
/- ----------------------------------------------------------------- -/

/-- regPagAux finds nothing when every payable carrying the id is inactive. -/
theorem regPagAux_none (l : List ContaPagar) (i : String) (dp : Option String)
    (hs u : String) (h : ∀ c ∈ l, c.id = i → c.ativo = false) :
    regPagAux i dp hs u l = none := by
  induction l with
  | nil => rfl
  | cons c rest ih =>
    unfold regPagAux
    rw [if_neg, ih (fun d hd hdi => h d (List.mem_cons_of_mem _ hd) hdi)]
    · rfl
    · rintro ⟨hid, hat⟩
      rw [h c (List.mem_cons_self _ _) hid] at hat
      exact Bool.false_ne_true hat

/-- regRecAux finds nothing when every receivable carrying the id is inactive. -/
theorem regRecAux_none (l : List ContaReceber) (i : String) (dp : Option String)
    (hs u : String) (h : ∀ c ∈ l, c.id = i → c.ativo = false) :
    regRecAux i dp hs u l = none := by
  induction l with
  | nil => rfl
  | cons c rest ih =>
    unfold regRecAux
    rw [if_neg, ih (fun d hd hdi => h d (List.mem_cons_of_mem _ hd) hdi)]
    · rfl
    · rintro ⟨hid, hat⟩
      rw [h c (List.mem_cons_self _ _) hid] at hat
      exact Bool.false_ne_true hat

/-- C10: when every payable carrying an id is soft-deleted, registrar_pagamento
returns False with the store untouched — exactly the result for an id that
does not exist at all — and symmetrically for registrar_recebimento on
soft-deleted receivables: the settlement lookups match active records only. -/
theorem C10_settlement_ignores_inactive (s : Sistema) (i : String) (dp : Option String)
    (hs u : String)
    (hp : ∀ c ∈ s.contas_pagar, c.id = i → c.ativo = false)
    (hr : ∀ c ∈ s.contas_receber, c.id = i → c.ativo = false) :
    registrar_pagamento s i dp hs u = (false, s) ∧
    registrar_recebimento s i dp hs u = (false, s) := by
  constructor
  · unfold registrar_pagamento
    rw [regPagAux_none s.contas_pagar i dp hs u hp]
  · unfold registrar_recebimento
    rw [regRecAux_none s.contas_receber i dp hs u hr]

/-- Witness for C10: a store holding only a deactivated CP001 and a
deactivated CR001; settling either id fails and changes nothing. -/
theorem C10_witness :
    registrar_pagamento
      ⟨[{ cpRent with ativo := false }], [{ crSale with ativo := false }],
        catPagarPadrao, catReceberPadrao⟩ "CP001" (some "2024-03-10") "2024-03-10" "sistema"
      = (false, ⟨[{ cpRent with ativo := false }], [{ crSale with ativo := false }],
          catPagarPadrao, catReceberPadrao⟩) ∧
    registrar_recebimento
      ⟨[{ cpRent with ativo := false }], [{ crSale with ativo := false }],
        catPagarPadrao, catReceberPadrao⟩ "CR001" (some "2024-03-10") "2024-03-10" "sistema"
      = (false, ⟨[{ cpRent with ativo := false }], [{ crSale with ativo := false }],
          catPagarPadrao, catReceberPadrao⟩) := by
  constructor
  · exact (C10_settlement_ignores_inactive _ "CP001" (some "2024-03-10") "2024-03-10" "sistema"
      (by intro c hc hid; simp only [List.mem_singleton] at hc; rw [hc])
      (by intro c hc hid; simp only [List.mem_singleton] at hc; rw [hc])).1
  · exact (C10_settlement_ignores_inactive _ "CR001" (some "2024-03-10") "2024-03-10" "sistema"
      (by intro c hc hid; simp only [List.mem_singleton] at hc; rw [hc])
      (by intro c hc hid; simp only [List.mem_singleton] at hc; rw [hc])).2

/- ----------------------------------------------------------------- -/
/- C8: id generation.                                                 -/
/- ----------------------------------------------------------------- -/

/-- The decimal rendering of a natural number consists of digits. -/
theorem natDigits_all_digit (n : ℕ) : (natDigits n).all isDigitCh = true := by
  unfold natDigits
  by_cases h : n = 0
  · rw [if_pos h]; decide
  · rw [if_neg h, List.all_eq_true]
    intro c hc
    obtain ⟨d, hd, rfl⟩ := List.mem_map.mp hc
    have : d < 10 := Nat.digits_lt_base (by norm_num) (List.mem_reverse.mp hd)
    interval_cases d <;> decide

/-- The decimal rendering of a natural number is nonempty. -/
theorem natDigits_ne_nil (n : ℕ) : natDigits n ≠ [] := by
  unfold natDigits
  by_cases h : n = 0
  · rw [if_pos h]; simp
  · rw [if_neg h]
    simp [Nat.digits_ne_nil_iff_ne_zero, h]

/-- Reading back the decimal rendering of a natural number recovers it. -/
theorem digitsVal_natDigits (n : ℕ) : digitsVal (natDigits n) = n := by
  unfold natDigits
  by_cases h : n = 0
  · rw [if_pos h, h]; decide
  · rw [if_neg h]
    unfold digitsVal
    rw [List.foldl_map, List.foldl_reverse]
    have key : ∀ ds : List ℕ, (∀ d ∈ ds, d < 10) →
        ds.foldr (fun x y => 10 * y + ((Char.ofNat (48 + x)).toNat - 48)) 0 =
          Nat.ofDigits 10 ds := by
      intro ds hds
      induction ds with
      | nil => simp [Nat.ofDigits_nil]
      | cons d rest ih =>
        rw [List.foldr_cons, ih (fun x hx => hds x (List.mem_cons_of_mem _ hx)),
          Nat.ofDigits_cons]
        have hd : d < 10 := hds d (List.mem_cons_self _ _)
        have hch : (Char.ofNat (48 + d)).toNat = 48 + d := by interval_cases d <;> decide
        rw [hch]
        omega
    rw [key _ (fun d hd => Nat.digits_lt_base (by norm_num) hd), Nat.ofDigits_digits]

/-- Zero padding does not change the numeric reading of a digit string. -/
theorem digitsVal_padZeros (w : ℕ) (ds : List Char) :
    digitsVal (padZeros w ds) = digitsVal ds := by
  unfold padZeros digitsVal
  rw [List.foldl_append]
  have hz : ∀ k, List.foldl (fun a c => 10 * a + (c.toNat - 48)) 0 (List.replicate k '0') = 0 := by
    intro k
    induction k with
    | zero => rfl
    | succ k ih =>
      rw [List.replicate_succ, List.foldl_cons]
      exact ih
  rw [hz]

/-- Zero padding preserves digit-ness. -/
theorem all_padZeros (w : ℕ) (ds : List Char) (h : ds.all isDigitCh = true) :
    (padZeros w ds).all isDigitCh = true := by
  unfold padZeros
  have hrep : (List.replicate (w - ds.length) '0').all isDigitCh = true := by
    rw [List.all_eq_true]
    intro c hc
    rw [List.eq_of_mem_replicate hc]
    decide
  rw [List.all_append, hrep, h]
  rfl

/-- A zero-padded nonempty list stays nonempty. -/
theorem padZeros_ne_nil (w : ℕ) (ds : List Char) (h : ds ≠ []) : padZeros w ds ≠ [] := by
  unfold padZeros
  intro hc
  exact h (List.append_eq_nil.mp hc).2

/-- Unfolding equation of parseIntCh on a nonempty list. -/
theorem parseIntCh_cons (c : Char) (rest : List Char) :
    parseIntCh (c :: rest) =
      if c = '-' then
        if rest ≠ [] ∧ rest.all isDigitCh then some (-(digitsVal rest : ℤ)) else none
      else if (c :: rest).all isDigitCh then some ((digitsVal (c :: rest) : ℤ)) else none := rfl

/-- parseIntCh on a nonempty all-digit string yields its value. -/
theorem parseIntCh_digits (cs : List Char) (h1 : cs ≠ []) (h2 : cs.all isDigitCh = true) :
    parseIntCh cs = some ((digitsVal cs : ℤ)) := by
  cases cs with
  | nil => exact absurd rfl h1
  | cons c rest =>
    rw [parseIntCh_cons]
    have hc : isDigitCh c = true := by
      rw [List.all_cons, Bool.and_eq_true] at h2
      exact h2.1
    have hcne : ¬ (c = '-') := by
      intro e
      rw [e] at hc
      exact absurd hc (by decide)
    rw [if_neg hcne, if_pos h2]

/-- parseIntCh on a minus sign followed by digits yields the negated value. -/
theorem parseIntCh_neg (ds : List Char) (h1 : ds ≠ []) (h2 : ds.all isDigitCh = true) :
    parseIntCh ('-' :: ds) = some (-(digitsVal ds : ℤ)) := by
  rw [parseIntCh_cons, if_pos rfl, if_pos ⟨h1, h2⟩]

/-- Round trip: parsing the {:03d} rendering of an integer recovers it. -/
theorem parseIntCh_fmt03d (n : ℤ) : parseIntCh (fmt03d n).data = some n := by
  unfold fmt03d
  by_cases h : 0 ≤ n
  · rw [if_pos h]
    show parseIntCh (padZeros 3 (natDigits n.toNat)) = some n
    rw [parseIntCh_digits _ (padZeros_ne_nil _ _ (natDigits_ne_nil _))
        (all_padZeros _ _ (natDigits_all_digit _)),
      digitsVal_padZeros, digitsVal_natDigits, Int.toNat_of_nonneg h]
  · rw [if_neg h]
    show parseIntCh ('-' :: padZeros 2 (natDigits (-n).toNat)) = some n
    rw [parseIntCh_neg _ (padZeros_ne_nil _ _ (natDigits_ne_nil _))
        (all_padZeros _ _ (natDigits_all_digit _)),
      digitsVal_padZeros, digitsVal_natDigits]
    congr 1
    omega

/-- The {:03d} rendering of 1 is the literal 001 used by the empty-collection
branch of gerar_id_conta. -/
theorem fmt03d_one : fmt03d 1 = "001" := by
  have hd1 : Nat.digits 10 1 = [1] := by
    rw [Nat.digits_def' (b := 10) (by norm_num) (by norm_num)]
    norm_num
  have hnd : natDigits (Int.toNat 1) = ['1'] := by
    show natDigits 1 = ['1']
    unfold natDigits
    rw [if_neg (by norm_num), hd1]
    decide
  unfold fmt03d
  rw [if_pos (by norm_num), hnd]
  decide

/-- Python max over head and tail bounds every element. -/
theorem listMax_ge (x : ℤ) (xs : List ℤ) :
    x ≤ listMax x xs ∧ ∀ y ∈ xs, y ≤ listMax x xs := by
  induction xs generalizing x with
  | nil => exact ⟨le_refl x, by simp⟩
  | cons y ys ih =>
    unfold listMax
    obtain ⟨h1, h2⟩ := ih (max x y)
    refine ⟨le_trans (le_max_left x y) h1, ?_⟩
    intro z hz
    rcases List.mem_cons.mp hz with rfl | hz2
    · exact le_trans (le_max_right x z) h1
    · exact h2 z hz2

/-- A prefixed id with a parseable suffix contributes that suffix to the scan. -/
theorem mem_suffixList (prefixo : String) (ids : List String) (i : String) (m : ℤ)
    (hi : i ∈ ids) (hpre : prefixo.data.isPrefixOf i.data = true)
    (hm : parseIntCh (i.data.drop 2) = some m) : m ∈ suffixList prefixo ids := by
  unfold suffixList
  rw [List.mem_filterMap]
  refine ⟨i, hi, ?_⟩
  rw [if_pos hpre, hm]

/-- Core characterization of gerarFromIds: the produced id is the prefix plus
the {:03d} rendering of a suffix k that parses back from the id, exceeds every
parsed suffix of every prefixed id already present (k = 1 when none parse),
and therefore differs from every id present. -/
theorem gerarFromIds_spec (prefixo : String) (ids : List String)
    (hp : prefixo.data.length = 2) :
    ∃ k : ℤ,
      gerarFromIds prefixo ids = prefixo ++ fmt03d k ∧
      parseIntCh ((gerarFromIds prefixo ids).data.drop 2) = some k ∧
      (∀ i ∈ ids, ∀ m : ℤ, prefixo.data.isPrefixOf i.data = true →
        parseIntCh (i.data.drop 2) = some m → m < k) ∧
      (suffixList prefixo ids = [] → k = 1) ∧
      (∀ i ∈ ids, i ≠ gerarFromIds prefixo ids) := by
  obtain ⟨k, hEq, hone, hgt⟩ :
      ∃ k : ℤ, gerarFromIds prefixo ids = prefixo ++ fmt03d k ∧
        (suffixList prefixo ids = [] → k = 1) ∧
        (∀ m ∈ suffixList prefixo ids, m < k) := by
    unfold gerarFromIds
    by_cases hids : ids = []
    · subst hids
      refine ⟨1, ?_, fun _ => rfl, ?_⟩
      · rw [if_pos rfl, fmt03d_one]
      · intro m hm
        simp [suffixList] at hm
    · rw [if_neg hids]
      cases hnum : suffixList prefixo ids with
      | nil =>
        refine ⟨1, rfl, fun _ => rfl, ?_⟩
        intro m hm
        simp at hm
      | cons x xs =>
        refine ⟨listMax x xs + 1, rfl, ?_, ?_⟩
        · intro hcontra
          exact (List.cons_ne_nil x xs hcontra).elim
        · intro m hm
          rcases List.mem_cons.mp hm with rfl | hm2
          · have := (listMax_ge m xs).1
            omega
          · have := (listMax_ge x xs).2 m hm2
            omega
  have hdrop : (gerarFromIds prefixo ids).data.drop 2 = (fmt03d k).data := by
    rw [hEq, String.data_append, List.drop_left' hp]
  have hparse : parseIntCh ((gerarFromIds prefixo ids).data.drop 2) = some k := by
    rw [hdrop, parseIntCh_fmt03d]
  refine ⟨k, hEq, hparse, ?_, hone, ?_⟩
  · intro i hi m hpre hm
    exact hgt m (mem_suffixList prefixo ids i m hi hpre hm)
  · intro i hi hcontra
    have hpre : prefixo.data.isPrefixOf i.data = true := by
      rw [hcontra, hEq, String.data_append]
      exact List.isPrefixOf_iff_prefix.mpr (List.prefix_append _ _)
    have hm : parseIntCh (i.data.drop 2) = some k := by
      rw [hcontra]
      exact hparse
    have := hgt k (mem_suffixList prefixo ids i k hi hpre hm)
    omega

/-- Soft deletion changes only the ativo flag, so the id column is intact. -/
theorem excluirPagAux_ids (l : List ContaPagar) (i : String) (l2 : List ContaPagar)
    (h : excluirPagAux l i = some l2) : l2.map (·.id) = l.map (·.id) := by
  induction l generalizing l2 with
  | nil => exact absurd h (by simp [excluirPagAux])
  | cons c rest ih =>
    unfold excluirPagAux at h
    by_cases hc : c.id = i ∧ c.ativo
    · rw [if_pos hc, Option.some_inj] at h
      subst h
      simp
    · rw [if_neg hc] at h
      cases hrec : excluirPagAux rest i with
      | none =>
        rw [hrec] at h
        exact absurd h (by simp)
      | some lr =>
        rw [hrec] at h
        have h2 : c :: lr = l2 := by simpa using h
        subst h2
        simp [ih lr hrec]

theorem excluirRecAux_ids (l : List ContaReceber) (i : String) (l2 : List ContaReceber)
    (h : excluirRecAux l i = some l2) : l2.map (·.id) = l.map (·.id) := by
  induction l generalizing l2 with
  | nil => exact absurd h (by simp [excluirRecAux])
  | cons c rest ih =>
    unfold excluirRecAux at h
    by_cases hc : c.id = i ∧ c.ativo
    · rw [if_pos hc, Option.some_inj] at h
      subst h
      simp
    · rw [if_neg hc] at h
      cases hrec : excluirRecAux rest i with
      | none =>
        rw [hrec] at h
        exact absurd h (by simp)
      | some lr =>
        rw [hrec] at h
        have h2 : c :: lr = l2 := by simpa using h
        subst h2
        simp [ih lr hrec]

/-- C8: every generated id carries the kind prefix and a numeric suffix k that
parses back from the id and strictly exceeds the parsed suffix of every id of
that kind already in the collection (k = 1 when none parse), so the new id is
never an existing id; the generator reads only the id column, hence
soft-deleting any record leaves the next id unchanged; and a successful
registration appends a record carrying exactly the generated id, which makes
the suffixes strictly increase along any sequence of registrations. -/
theorem C8_id_assignment (s : Sistema) :
    (∃ k : ℤ,
      gerar_id_conta s "pagar" = "CP" ++ fmt03d k ∧
      parseIntCh ((gerar_id_conta s "pagar").data.drop 2) = some k ∧
      (∀ c ∈ s.contas_pagar, ∀ m : ℤ, ("CP" : String).data.isPrefixOf c.id.data = true →
        parseIntCh (c.id.data.drop 2) = some m → m < k) ∧
      (suffixList "CP" (s.contas_pagar.map (·.id)) = [] → k = 1) ∧
      (∀ c ∈ s.contas_pagar, c.id ≠ gerar_id_conta s "pagar")) ∧
    (∃ k : ℤ,
      gerar_id_conta s "receber" = "CR" ++ fmt03d k ∧
      parseIntCh ((gerar_id_conta s "receber").data.drop 2) = some k ∧
      (∀ c ∈ s.contas_receber, ∀ m : ℤ, ("CR" : String).data.isPrefixOf c.id.data = true →
        parseIntCh (c.id.data.drop 2) = some m → m < k) ∧
      (suffixList "CR" (s.contas_receber.map (·.id)) = [] → k = 1) ∧
      (∀ c ∈ s.contas_receber, c.id ≠ gerar_id_conta s "receber")) ∧
    (∀ i tipo,
      gerar_id_conta ((excluir_conta_pagar s i).2) tipo = gerar_id_conta s tipo ∧
      gerar_id_conta ((excluir_conta_receber s i).2) tipo = gerar_id_conta s tipo) ∧
    (∀ de ca va dv fo ob us hoje agora ri s2,
      cadastrar_conta_pagar s de ca va dv fo ob us hoje agora = some (ri, s2) →
      ri = gerar_id_conta s "pagar" ∧
      ∃ nova, s2.contas_pagar = s.contas_pagar ++ [nova] ∧ nova.id = ri) ∧
    (∀ cl de ca va dv ob us hoje agora ri s2,
      cadastrar_conta_receber s cl de ca va dv ob us hoje agora = some (ri, s2) →
      ri = gerar_id_conta s "receber" ∧
      ∃ nova, s2.contas_receber = s.contas_receber ++ [nova] ∧ nova.id = ri) := by
  have hpag : gerar_id_conta s "pagar" = gerarFromIds "CP" (s.contas_pagar.map (·.id)) := by
    unfold gerar_id_conta
    rw [if_pos rfl]
  have hrec : gerar_id_conta s "receber" = gerarFromIds "CR" (s.contas_receber.map (·.id)) := by
    unfold gerar_id_conta
    rw [if_neg (by decide)]
  refine ⟨?_, ?_, ?_, ?_, ?_⟩
  · obtain ⟨k, h1, h2, h3, h4, h5⟩ := gerarFromIds_spec "CP" (s.contas_pagar.map (·.id)) rfl
    refine ⟨k, by rw [hpag, h1], by rw [hpag]; exact h2, ?_, h4, ?_⟩
    · intro c hc m hpre hm
      exact h3 c.id (List.mem_map_of_mem _ hc) m hpre hm
    · intro c hc
      rw [hpag]
      exact h5 c.id (List.mem_map_of_mem _ hc)
  · obtain ⟨k, h1, h2, h3, h4, h5⟩ := gerarFromIds_spec "CR" (s.contas_receber.map (·.id)) rfl
    refine ⟨k, by rw [hrec, h1], by rw [hrec]; exact h2, ?_, h4, ?_⟩
    · intro c hc m hpre hm
      exact h3 c.id (List.mem_map_of_mem _ hc) m hpre hm
    · intro c hc
      rw [hrec]
      exact h5 c.id (List.mem_map_of_mem _ hc)
  · intro i tipo
    constructor
    · unfold excluir_conta_pagar
      cases haux : excluirPagAux s.contas_pagar i with
      | some l2 =>
        unfold gerar_id_conta
        by_cases ht : tipo = "pagar"
        · rw [if_pos ht, if_pos ht]
          rw [excluirPagAux_ids s.contas_pagar i l2 haux]
        · rw [if_neg ht, if_neg ht]
      | none => rfl
    · unfold excluir_conta_receber
      cases haux : excluirRecAux s.contas_receber i with
      | some l2 =>
        unfold gerar_id_conta
        by_cases ht : tipo = "pagar"
        · rw [if_pos ht, if_pos ht]
        · rw [if_neg ht, if_neg ht]
          rw [excluirRecAux_ids s.contas_receber i l2 haux]
      | none => rfl
  · intro de ca va dv fo ob us hoje agora ri s2 hcad
    unfold cadastrar_conta_pagar at hcad
    split_ifs at hcad
    simp only [Option.some_inj, Prod.mk.injEq] at hcad
    obtain ⟨h1, h2⟩ := hcad
    subst h2
    subst h1
    exact ⟨rfl, ⟨_, rfl, rfl⟩⟩
  · intro cl de ca va dv ob us hoje agora ri s2 hcad
    unfold cadastrar_conta_receber at hcad
    split_ifs at hcad
    simp only [Option.some_inj, Prod.mk.injEq] at hcad
    obtain ⟨h1, h2⟩ := hcad
    subst h2
    subst h1
    exact ⟨rfl, ⟨_, rfl, rfl⟩⟩

/-- Witness for C8: on a store holding the active payable CP001, the next
payable id differs from CP001, and soft-deleting CP001 does not change the
id the generator would assign next. -/
theorem C8_witness :
    gerar_id_conta ⟨[cpRent], [crSale], catPagarPadrao, catReceberPadrao⟩ "pagar" ≠ "CP001" ∧
    gerar_id_conta
      ((excluir_conta_pagar ⟨[cpRent], [crSale], catPagarPadrao, catReceberPadrao⟩ "CP001").2)
      "pagar"
      = gerar_id_conta ⟨[cpRent], [crSale], catPagarPadrao, catReceberPadrao⟩ "pagar" := by
  obtain ⟨⟨k, hEq, hparse, hgt, hone, hfresh⟩, _, hinv, _, _⟩ :=
    C8_id_assignment ⟨[cpRent], [crSale], catPagarPadrao, catReceberPadrao⟩
  constructor
  · exact fun hcon => hfresh cpRent (List.mem_singleton.mpr rfl) hcon.symm
  · exact (hinv "CP001" "pagar").1

/- ----------------------------------------------------------------- -/
/- C6: monthly cash-flow window.                                      -/
/- ----------------------------------------------------------------- -/

/-- Arithmetic characterization of the leap-year test. -/
theorem isLeap_eq_true_iff (y : ℕ) :
    isLeap y = true ↔ ((y % 4 = 0 ∧ y % 100 ≠ 0) ∨ y % 400 = 0) := by
  unfold isLeap
  rw [Bool.or_eq_true, Bool.and_eq_true, beq_iff_eq, bne_iff_ne, beq_iff_eq]

set_option maxHeartbeats 2000000 in
/-- The rollover arithmetic of fluxo_caixa_mensal (first day of the next
month, minus one day; December rolls into January of the next year) lands
exactly on the last calendar day of the month. -/
theorem monthEnd_eq_lastDay (ano mes : ℕ) (h1 : 1 ≤ ano) (h2 : 1 ≤ mes) (h3 : mes ≤ 12) :
    (if mes == 12 then ordDate ⟨ano + 1, 1, 1⟩ else ordDate ⟨ano, mes + 1, 1⟩) - 1
      = ordDate ⟨ano, mes, daysInMonth ano mes⟩ := by
  by_cases h12 : mes = 12
  · subst h12
    show ordDate ⟨ano + 1, 1, 1⟩ - 1 = ordDate ⟨ano, 12, daysInMonth ano 12⟩
    cases hl : isLeap ano with
    | false =>
      have hnl : ¬ ((ano % 4 = 0 ∧ ano % 100 ≠ 0) ∨ ano % 400 = 0) := by
        rw [← isLeap_eq_true_iff, hl]
        exact Bool.false_ne_true
      simp only [ordDate, daysBeforeMonth, daysBeforeMonthTab, daysInMonth, hl,
        Bool.and_false, Bool.and_true, decide_eq_true_eq, Nat.add_sub_cancel]
      norm_num
      omega
    | true =>
      have hlp : (ano % 4 = 0 ∧ ano % 100 ≠ 0) ∨ ano % 400 = 0 :=
        (isLeap_eq_true_iff ano).mp hl
      simp only [ordDate, daysBeforeMonth, daysBeforeMonthTab, daysInMonth, hl,
        Bool.and_false, Bool.and_true, decide_eq_true_eq, Nat.add_sub_cancel]
      norm_num
      omega
  · have hne : ¬ ((mes == 12) = true) := by
      rw [beq_iff_eq]
      exact h12
    rw [if_neg hne]
    have h11 : mes ≤ 11 := by omega
    interval_cases mes <;> cases hl : isLeap ano <;>
      simp only [ordDate, daysBeforeMonth, daysBeforeMonthTab, daysInMonth, hl,
        Bool.and_false, Bool.and_true, decide_eq_true_eq, Nat.add_sub_cancel] <;>
      norm_num

/-- C6: for every year and month 1..12, the settlement window of
fluxo_caixa_mensal runs from the first to the last calendar day of that month
(rollover handled by the calendar arithmetic), and the records counted are
exactly the active settled ones whose parsed settlement date lies in that
closed range. -/
theorem C6_monthly_window (s : Sistema) (ano mes : ℕ)
    (h1 : 1 ≤ ano) (h2 : 1 ≤ mes) (h3 : mes ≤ 12) :
    (fluxo_caixa_mensal s ano mes).inicio_ord = ordDate ⟨ano, mes, 1⟩ ∧
    (fluxo_caixa_mensal s ano mes).fim_ord = ordDate ⟨ano, mes, daysInMonth ano mes⟩ ∧
    (fluxo_caixa_mensal s ano mes).entradas = s.contas_receber.filter (fun c =>
      c.ativo && c.status == "recebido" &&
        dataNoIntervalo (ordDate ⟨ano, mes, 1⟩) (ordDate ⟨ano, mes, daysInMonth ano mes⟩)
          c.data_recebimento) ∧
    (fluxo_caixa_mensal s ano mes).saidas = s.contas_pagar.filter (fun c =>
      c.ativo && c.status == "pago" &&
        dataNoIntervalo (ordDate ⟨ano, mes, 1⟩) (ordDate ⟨ano, mes, daysInMonth ano mes⟩)
          c.data_pagamento) ∧
    (∀ c ∈ (fluxo_caixa_mensal s ano mes).entradas,
      c.ativo = true ∧ c.status = "recebido" ∧
      ∃ d, parseDate (c.data_recebimento.getD "") = some d ∧
        ordDate ⟨ano, mes, 1⟩ ≤ ordDate d ∧
        ordDate d ≤ ordDate ⟨ano, mes, daysInMonth ano mes⟩) ∧
    (∀ c ∈ (fluxo_caixa_mensal s ano mes).saidas,
      c.ativo = true ∧ c.status = "pago" ∧
      ∃ d, parseDate (c.data_pagamento.getD "") = some d ∧
        ordDate ⟨ano, mes, 1⟩ ≤ ordDate d ∧
        ordDate d ≤ ordDate ⟨ano, mes, daysInMonth ano mes⟩) := by
  have hfim := monthEnd_eq_lastDay ano mes h1 h2 h3
  have hini : (fluxo_caixa_mensal s ano mes).inicio_ord = ordDate ⟨ano, mes, 1⟩ := rfl
  have hfim2 : (fluxo_caixa_mensal s ano mes).fim_ord
      = ordDate ⟨ano, mes, daysInMonth ano mes⟩ := by
    show (if mes == 12 then ordDate ⟨ano + 1, 1, 1⟩ else ordDate ⟨ano, mes + 1, 1⟩) - 1
      = ordDate ⟨ano, mes, daysInMonth ano mes⟩
    exact hfim
  have hent : (fluxo_caixa_mensal s ano mes).entradas = s.contas_receber.filter (fun c =>
      c.ativo && c.status == "recebido" &&
        dataNoIntervalo (ordDate ⟨ano, mes, 1⟩) (ordDate ⟨ano, mes, daysInMonth ano mes⟩)
          c.data_recebimento) := by
    show s.contas_receber.filter _ = s.contas_receber.filter _
    rw [← hfim]
  have hsai : (fluxo_caixa_mensal s ano mes).saidas = s.contas_pagar.filter (fun c =>
      c.ativo && c.status == "pago" &&
        dataNoIntervalo (ordDate ⟨ano, mes, 1⟩) (ordDate ⟨ano, mes, daysInMonth ano mes⟩)
          c.data_pagamento) := by
    show s.contas_pagar.filter _ = s.contas_pagar.filter _
    rw [← hfim]
  refine ⟨hini, hfim2, hent, hsai, ?_, ?_⟩
  · intro c hc
    rw [hent] at hc
    obtain ⟨hmem, hcond⟩ := List.mem_filter.mp hc
    rw [Bool.and_eq_true, Bool.and_eq_true] at hcond
    obtain ⟨⟨hat, hst⟩, hint⟩ := hcond
    refine ⟨hat, by simpa using hst, ?_⟩
    unfold dataNoIntervalo at hint
    cases hd : parseDate (c.data_recebimento.getD "") with
    | none => rw [hd] at hint; exact Bool.noConfusion hint
    | some d =>
      rw [hd] at hint
      rw [Bool.and_eq_true, decide_eq_true_eq, decide_eq_true_eq] at hint
      exact ⟨d, rfl, hint.1, hint.2⟩
  · intro c hc
    rw [hsai] at hc
    obtain ⟨hmem, hcond⟩ := List.mem_filter.mp hc
    rw [Bool.and_eq_true, Bool.and_eq_true] at hcond
    obtain ⟨⟨hat, hst⟩, hint⟩ := hcond
    refine ⟨hat, by simpa using hst, ?_⟩
    unfold dataNoIntervalo at hint
    cases hd : parseDate (c.data_pagamento.getD "") with
    | none => rw [hd] at hint; exact Bool.noConfusion hint
    | some d =>
      rw [hd] at hint
      rw [Bool.and_eq_true, decide_eq_true_eq, decide_eq_true_eq] at hint
      exact ⟨d, rfl, hint.1, hint.2⟩

/-- Witness for C6: February 2024 (leap year) is bounded by 2024-02-01 and
2024-02-29, on a store holding a receivable settled on 2024-02-29. -/
theorem C6_witness :
    (fluxo_caixa_mensal
      ⟨[], [{ crSale with status := "recebido", data_recebimento := some "2024-02-29" }],
        catPagarPadrao, catReceberPadrao⟩ 2024 2).inicio_ord = ordDate ⟨2024, 2, 1⟩ ∧
    (fluxo_caixa_mensal
      ⟨[], [{ crSale with status := "recebido", data_recebimento := some "2024-02-29" }],
        catPagarPadrao, catReceberPadrao⟩ 2024 2).fim_ord = ordDate ⟨2024, 2, 29⟩ ∧
    daysInMonth 2024 2 = 29 := by
  obtain ⟨hi, hf, _⟩ := C6_monthly_window
    ⟨[], [{ crSale with status := "recebido", data_recebimento := some "2024-02-29" }],
      catPagarPadrao, catReceberPadrao⟩ 2024 2 (by norm_num) (by norm_num) (by norm_num)
  refine ⟨hi, ?_, by decide⟩
  rw [hf]
  decide

/- ----------------------------------------------------------------- -/
/- C2: exclusion of soft-deleted records.                             -/
/- ----------------------------------------------------------------- -/

/-- Membership is preserved by stable insertion. -/
theorem mem_insertSorted {α : Type} (lt : α → α → Bool) (x a : α) (l : List α) :
    a ∈ insertSorted lt x l ↔ a = x ∨ a ∈ l := by
  induction l with
  | nil => simp [insertSorted]
  | cons y ys ih =>
    unfold insertSorted
    by_cases h : lt y x = true
    · rw [if_pos h]
      rw [List.mem_cons, ih, List.mem_cons]
      tauto
    · rw [if_neg h]
      rw [List.mem_cons, List.mem_cons]

/-- Membership is preserved by the sort used for the listing output. -/
theorem mem_sortBy {α : Type} (lt : α → α → Bool) (a : α) (l : List α) :
    a ∈ sortBy lt l ↔ a ∈ l := by
  induction l with
  | nil => rfl
  | cons x xs ih =>
    unfold sortBy
    rw [mem_insertSorted, ih, List.mem_cons]

/-- Filtering an already active-only list by a predicate that requires the
active flag is the same as filtering the raw list. -/
theorem filter_ativo_and {α : Type} (f p : α → Bool) (l : List α) :
    (l.filter f).filter (fun c => f c && p c) = l.filter (fun c => f c && p c) := by
  rw [List.filter_filter]
  apply List.filter_congr
  intro c hc
  cases hfc : f c <;> simp [hfc]

/-- Filtering by the active flag is idempotent. -/
theorem filter_ativo_self {α : Type} (f : α → Bool) (l : List α) :
    (l.filter f).filter f = l.filter f := by
  rw [List.filter_filter]
  apply List.filter_congr
  intro c hc
  cases hfc : f c <;> simp [hfc]

/-- The store restricted to its active records: what the collections would
hold if soft-deleted records were physically removed. -/
def somenteAtivas (s : Sistema) : Sistema :=
  { s with contas_pagar := s.contas_pagar.filter (·.ativo),
           contas_receber := s.contas_receber.filter (·.ativo) }

/-- With at least one date bound the report filter already drops inactive
records, so purging them first changes nothing. -/
theorem relFiltroPagar_somenteAtivas (s : Sistema) (d1 d2 : Option String)
    (h : (d1.isSome || d2.isSome) = true) :
    relFiltroPagar (somenteAtivas s) d1 d2 = relFiltroPagar s d1 d2 := by
  unfold relFiltroPagar somenteAtivas
  rw [if_pos h, if_pos h]
  exact filter_ativo_and (fun c : ContaPagar => c.ativo)
    (fun c => dentroPeriodo d1 d2 c.data_vencimento) s.contas_pagar

theorem relFiltroReceber_somenteAtivas (s : Sistema) (d1 d2 : Option String)
    (h : (d1.isSome || d2.isSome) = true) :
    relFiltroReceber (somenteAtivas s) d1 d2 = relFiltroReceber s d1 d2 := by
  unfold relFiltroReceber somenteAtivas
  rw [if_pos h, if_pos h]
  exact filter_ativo_and (fun c : ContaReceber => c.ativo)
    (fun c => dentroPeriodo d1 d2 c.data_vencimento) s.contas_receber

/-- The report depends on the store only through the two filtered lists. -/
theorem relatorio_eq_of_filtros (s s2 : Sistema) (d1 d2 : Option String)
    (hp : relFiltroPagar s2 d1 d2 = relFiltroPagar s d1 d2)
    (hr : relFiltroReceber s2 d1 d2 = relFiltroReceber s d1 d2) :
    relatorio_financeiro s2 d1 d2 = relatorio_financeiro s d1 d2 := by
  unfold relatorio_financeiro
  rw [hp, hr]

/-- The per-category analysis skips inactive records, so it is unchanged by
dropping them beforehand. -/
theorem catStepPagar_filter (l : List ContaPagar) (m : List (String × CatPagarTot)) :
    (l.filter (·.ativo)).foldl catStepPagar m = l.foldl catStepPagar m := by
  induction l generalizing m with
  | nil => rfl
  | cons c rest ih =>
    by_cases hc : c.ativo = true
    · rw [List.filter_cons_of_pos hc, List.foldl_cons, List.foldl_cons, ih]
    · rw [List.filter_cons_of_neg (by simp [hc]), List.foldl_cons, ih]
      congr 1
      unfold catStepPagar
      rw [if_neg hc]

theorem catStepReceber_filter (l : List ContaReceber) (m : List (String × CatReceberTot)) :
    (l.filter (·.ativo)).foldl catStepReceber m = l.foldl catStepReceber m := by
  induction l generalizing m with
  | nil => rfl
  | cons c rest ih =>
    by_cases hc : c.ativo = true
    · rw [List.filter_cons_of_pos hc, List.foldl_cons, List.foldl_cons, ih]
    · rw [List.filter_cons_of_neg (by simp [hc]), List.foldl_cons, ih]
      congr 1
      unfold catStepReceber
      rw [if_neg hc]

/-- Soft deletion retains the record: the list keeps its length and now holds
an inactive record with the deleted id. -/
theorem excluirPagAux_retention (l : List ContaPagar) (i : String) (l2 : List ContaPagar)
    (h : excluirPagAux l i = some l2) :
    l2.length = l.length ∧ ∃ c ∈ l2, c.id = i ∧ c.ativo = false := by
  induction l generalizing l2 with
  | nil => exact absurd h (by simp [excluirPagAux])
  | cons c rest ih =>
    unfold excluirPagAux at h
    by_cases hc : c.id = i ∧ c.ativo
    · rw [if_pos hc, Option.some_inj] at h
      subst h
      exact ⟨by simp, ⟨{ c with ativo := false }, List.mem_cons_self _ _, hc.1, rfl⟩⟩
    · rw [if_neg hc] at h
      cases hrec : excluirPagAux rest i with
      | none =>
        rw [hrec] at h
        exact absurd h (by simp)
      | some lr =>
        rw [hrec] at h
        have h2 : c :: lr = l2 := by simpa using h
        subst h2
        obtain ⟨hlen, d, hd, hdi, hda⟩ := ih lr hrec
        exact ⟨by simp [hlen], ⟨d, List.mem_cons_of_mem _ hd, hdi, hda⟩⟩

theorem excluirRecAux_retention (l : List ContaReceber) (i : String) (l2 : List ContaReceber)
    (h : excluirRecAux l i = some l2) :
    l2.length = l.length ∧ ∃ c ∈ l2, c.id = i ∧ c.ativo = false := by
  induction l generalizing l2 with
  | nil => exact absurd h (by simp [excluirRecAux])
  | cons c rest ih =>
    unfold excluirRecAux at h
    by_cases hc : c.id = i ∧ c.ativo
    · rw [if_pos hc, Option.some_inj] at h
      subst h
      exact ⟨by simp, ⟨{ c with ativo := false }, List.mem_cons_self _ _, hc.1, rfl⟩⟩
    · rw [if_neg hc] at h
      cases hrec : excluirRecAux rest i with
      | none =>
        rw [hrec] at h
        exact absurd h (by simp)
      | some lr =>
        rw [hrec] at h
        have h2 : c :: lr = l2 := by simpa using h
        subst h2
        obtain ⟨hlen, d, hd, hdi, hda⟩ := ih lr hrec
        exact ⟨by simp [hlen], ⟨d, List.mem_cons_of_mem _ hd, hdi, hda⟩⟩

/-- C2 counterexample: a store whose only payable is soft-deleted; the
unbounded report still counts it in contas_pagar total (the claim requires
every field, record counts included, to exclude it). -/
theorem C2_counterexample :
    (∀ c ∈ ([{ cpRent with ativo := false }] : List ContaPagar), c.ativo = false) ∧
    (relatorio_financeiro
      ⟨[{ cpRent with ativo := false }], [], catPagarPadrao, catReceberPadrao⟩
      none none).contas_pagar_info.total = 1 := by
  constructor
  · intro c hc
    rw [List.mem_singleton.mp hc]
  · rfl

/-- C2 amended: soft-deleted records are excluded from both listing
operations, both search operations, and — through the active-only store
somenteAtivas — from every monetary sum, per-category bucket, overdue list
and status count of the report for every date range; for a bounded range the
whole report (record counts included) equals the purged-store report, while
for the unbounded range the two top-level record counts are the raw list
lengths, inactive records included; a successful soft deletion keeps the
record (now inactive) in the collection, which is exactly what salvar writes
back to the persisted file. -/
theorem C2_soft_delete_exclusion (s : Sistema) :
    (∀ hoje st cat, ∀ c ∈ (listar_contas_pagar s hoje st cat).1, c.ativo = true) ∧
    (∀ hoje st cat, ∀ c ∈ (listar_contas_receber s hoje st cat).1, c.ativo = true) ∧
    (∀ termo, ∀ c ∈ buscar_conta_pagar s termo, c.ativo = true) ∧
    (∀ termo, ∀ c ∈ buscar_conta_receber s termo, c.ativo = true) ∧
    (∀ d1 d2 : Option String, (d1.isSome || d2.isSome) = true →
      relatorio_financeiro (somenteAtivas s) d1 d2 = relatorio_financeiro s d1 d2) ∧
    ((relatorio_financeiro (somenteAtivas s) none none).resumo
        = (relatorio_financeiro s none none).resumo) ∧
    ((relatorio_financeiro (somenteAtivas s) none none).categorias_pagar
        = (relatorio_financeiro s none none).categorias_pagar) ∧
    ((relatorio_financeiro (somenteAtivas s) none none).categorias_receber
        = (relatorio_financeiro s none none).categorias_receber) ∧
    ((relatorio_financeiro (somenteAtivas s) none none).atrasadas_pagar
        = (relatorio_financeiro s none none).atrasadas_pagar) ∧
    ((relatorio_financeiro (somenteAtivas s) none none).atrasadas_receber
        = (relatorio_financeiro s none none).atrasadas_receber) ∧
    ((relatorio_financeiro (somenteAtivas s) none none).contas_pagar_info.pendentes
        = (relatorio_financeiro s none none).contas_pagar_info.pendentes) ∧
    ((relatorio_financeiro (somenteAtivas s) none none).contas_pagar_info.liquidadas
        = (relatorio_financeiro s none none).contas_pagar_info.liquidadas) ∧
    ((relatorio_financeiro (somenteAtivas s) none none).contas_pagar_info.atrasadas
        = (relatorio_financeiro s none none).contas_pagar_info.atrasadas) ∧
    ((relatorio_financeiro (somenteAtivas s) none none).contas_receber_info.pendentes
        = (relatorio_financeiro s none none).contas_receber_info.pendentes) ∧
    ((relatorio_financeiro (somenteAtivas s) none none).contas_receber_info.liquidadas
        = (relatorio_financeiro s none none).contas_receber_info.liquidadas) ∧
    ((relatorio_financeiro (somenteAtivas s) none none).contas_receber_info.atrasadas
        = (relatorio_financeiro s none none).contas_receber_info.atrasadas) ∧
    ((relatorio_financeiro s none none).contas_pagar_info.total
        = s.contas_pagar.length) ∧
    ((relatorio_financeiro s none none).contas_receber_info.total
        = s.contas_receber.length) ∧
    (∀ i, (excluir_conta_pagar s i).1 = true →
      (excluir_conta_pagar s i).2.contas_pagar.length = s.contas_pagar.length ∧
      ∃ c ∈ (excluir_conta_pagar s i).2.contas_pagar, c.id = i ∧ c.ativo = false) ∧
    (∀ i, (excluir_conta_receber s i).1 = true →
      (excluir_conta_receber s i).2.contas_receber.length = s.contas_receber.length ∧
      ∃ c ∈ (excluir_conta_receber s i).2.contas_receber, c.id = i ∧ c.ativo = false) := by
  have hlp : ∀ hoje st cat, ∀ c ∈ (listar_contas_pagar s hoje st cat).1, c.ativo = true := by
    intro hoje st cat c hc
    unfold listar_contas_pagar at hc
    rw [mem_sortBy] at hc
    have := (List.mem_filter.mp hc).2
    rw [Bool.and_eq_true, Bool.and_eq_true] at this
    exact this.1.1
  have hlr : ∀ hoje st cat, ∀ c ∈ (listar_contas_receber s hoje st cat).1, c.ativo = true := by
    intro hoje st cat c hc
    unfold listar_contas_receber at hc
    rw [mem_sortBy] at hc
    have := (List.mem_filter.mp hc).2
    rw [Bool.and_eq_true, Bool.and_eq_true] at this
    exact this.1.1
  have hbp : ∀ termo, ∀ c ∈ buscar_conta_pagar s termo, c.ativo = true := by
    intro termo c hc
    have := (List.mem_filter.mp hc).2
    rw [Bool.and_eq_true] at this
    exact this.1
  have hbr : ∀ termo, ∀ c ∈ buscar_conta_receber s termo, c.ativo = true := by
    intro termo c hc
    have := (List.mem_filter.mp hc).2
    rw [Bool.and_eq_true] at this
    exact this.1
  have hbounded : ∀ d1 d2 : Option String, (d1.isSome || d2.isSome) = true →
      relatorio_financeiro (somenteAtivas s) d1 d2 = relatorio_financeiro s d1 d2 := by
    intro d1 d2 h
    exact relatorio_eq_of_filtros s (somenteAtivas s) d1 d2
      (relFiltroPagar_somenteAtivas s d1 d2 h) (relFiltroReceber_somenteAtivas s d1 d2 h)
  have hcpf : relFiltroPagar (somenteAtivas s) none none = s.contas_pagar.filter (·.ativo) := rfl
  have hcrf : relFiltroReceber (somenteAtivas s) none none
      = s.contas_receber.filter (·.ativo) := rfl
  have hcpf0 : relFiltroPagar s none none = s.contas_pagar := rfl
  have hcrf0 : relFiltroReceber s none none = s.contas_receber := rfl
  refine ⟨hlp, hlr, hbp, hbr, hbounded, ?_, ?_, ?_, ?_, ?_, ?_, ?_, ?_, ?_, ?_, ?_, rfl, rfl,
    ?_, ?_⟩
  · show Resumo.mk _ _ _ _ _ _ _ _ _ _ = Resumo.mk _ _ _ _ _ _ _ _ _ _
    rw [hcpf, hcrf, hcpf0, hcrf0]
    simp only [filter_ativo_and, filter_ativo_self]
  · show List.foldl catStepPagar [] _ = List.foldl catStepPagar [] _
    rw [hcpf, hcpf0]
    exact catStepPagar_filter _ _
  · show List.foldl catStepReceber [] _ = List.foldl catStepReceber [] _
    rw [hcrf, hcrf0]
    exact catStepReceber_filter _ _
  · show List.filter _ _ = List.filter _ _
    rw [hcpf, hcpf0]
    exact filter_ativo_and _ _ _
  · show List.filter _ _ = List.filter _ _
    rw [hcrf, hcrf0]
    exact filter_ativo_and _ _ _
  · show (List.filter _ _).length = (List.filter _ _).length
    rw [hcpf, hcpf0, filter_ativo_and]
  · show (List.filter _ _).length = (List.filter _ _).length
    rw [hcpf, hcpf0, filter_ativo_and]
  · show (List.filter _ _).length = (List.filter _ _).length
    rw [hcpf, hcpf0, filter_ativo_and]
  · show (List.filter _ _).length = (List.filter _ _).length
    rw [hcrf, hcrf0, filter_ativo_and]
  · show (List.filter _ _).length = (List.filter _ _).length
    rw [hcrf, hcrf0, filter_ativo_and]
  · show (List.filter _ _).length = (List.filter _ _).length
    rw [hcrf, hcrf0, filter_ativo_and]
  · intro i hsuc
    unfold excluir_conta_pagar at hsuc ⊢
    cases haux : excluirPagAux s.contas_pagar i with
    | none => rw [haux] at hsuc; simp at hsuc
    | some l2 => exact excluirPagAux_retention s.contas_pagar i l2 haux
  · intro i hsuc
    unfold excluir_conta_receber at hsuc ⊢
    cases haux : excluirRecAux s.contas_receber i with
    | none => rw [haux] at hsuc; simp at hsuc
    | some l2 => exact excluirRecAux_retention s.contas_receber i l2 haux

/-- Witness for C2 at a concrete store: one active and one soft-deleted
payable; the soft-deleted one never appears in listings or searches, the
bounded report ignores it entirely, and it survives deletion in the list. -/
theorem C2_witness :
    (∀ c ∈ (listar_contas_pagar
        ⟨[cpRent, { cpRent with id := "CP002", ativo := false }], [],
          catPagarPadrao, catReceberPadrao⟩ ⟨2024, 3, 10⟩ none none).1, c.ativo = true) ∧
    relatorio_financeiro
        (somenteAtivas ⟨[cpRent, { cpRent with id := "CP002", ativo := false }], [],
          catPagarPadrao, catReceberPadrao⟩) (some "2024-01-01") none
      = relatorio_financeiro
        ⟨[cpRent, { cpRent with id := "CP002", ativo := false }], [],
          catPagarPadrao, catReceberPadrao⟩ (some "2024-01-01") none ∧
    (relatorio_financeiro ⟨[cpRent, { cpRent with id := "CP002", ativo := false }], [],
        catPagarPadrao, catReceberPadrao⟩ none none).contas_pagar_info.total = 2 := by
  obtain ⟨h1, _, _, _, h5, rest⟩ := C2_soft_delete_exclusion
    ⟨[cpRent, { cpRent with id := "CP002", ativo := false }], [],
      catPagarPadrao, catReceberPadrao⟩
  refine ⟨h1 ⟨2024, 3, 10⟩ none none, h5 (some "2024-01-01") none rfl, rfl⟩

/- ----------------------------------------------------------------- -/
/- Exactness of the rounding model on representable values.           -/
/- ----------------------------------------------------------------- -/

/-- ipow agrees with the monoid power. -/
theorem ipow_eq_pow (b : ℤ) (k : ℕ) : ipow b k = b ^ k := by
  induction k with
  | zero => rfl
  | succ k ih =>
    unfold ipow
    rw [ih, pow_succ]
    ring

/-- ipow of a positive base is positive. -/
theorem ipow_pos (b : ℤ) (hb : 0 < b) (k : ℕ) : 0 < ipow b k := by
  rw [ipow_eq_pow]
  positivity

/-- Correctness of the fuel-based logarithm: with enough fuel it brackets n
between consecutive powers of the base. -/
theorem logBF_correct (B : ℕ) (hB : 2 ≤ B) :
    ∀ f n, 1 ≤ n → n < B ^ f →
      B ^ (logBF B f n) ≤ n ∧ n < B ^ (logBF B f n + 1) := by
  intro f
  induction f with
  | zero =>
    intro n h1 h2
    simp at h2
    omega
  | succ f ih =>
    intro n h1 h2
    unfold logBF
    by_cases hn : n < B
    · rw [if_pos hn]
      constructor
      · simpa using h1
      · simpa using hn
    · rw [if_neg hn]
      have hB0 : 0 < B := by omega
      have hd1 : 1 ≤ n / B := (Nat.one_le_div_iff hB0).mpr (by omega)
      have hd2 : n / B < B ^ f := by
        rw [Nat.div_lt_iff_lt_mul hB0]
        calc n < B ^ (f + 1) := h2
          _ = B ^ f * B := by rw [pow_succ]
      obtain ⟨hl, hr⟩ := ih (n / B) hd1 hd2
      constructor
      · rw [pow_succ]
        calc B ^ (logBF B f (n / B)) * B ≤ (n / B) * B := Nat.mul_le_mul_right _ hl
          _ ≤ n := Nat.div_mul_le_self n B
      · rw [pow_succ]
        have hmod : n % B < B := Nat.mod_lt _ hB0
        have hdm : B * (n / B) + n % B = n := Nat.div_add_mod n B
        calc n < (n / B + 1) * B := by
              rw [Nat.add_mul, Nat.one_mul, Nat.mul_comm]
              omega
          _ ≤ B ^ (logBF B f (n / B) + 1) * B := Nat.mul_le_mul_right _ (by omega)

/-- Division with round-to-nearest is exact on exact multiples. -/
theorem divRNE_mul_cancel (x d : ℤ) (hd : 0 < d) : divRNE (x * d) d = x := by
  unfold divRNE
  rw [Int.mul_fdiv_cancel x (by omega), Int.mul_fmod_left]
  rw [if_pos (by omega)]

set_option maxRecDepth 40000 in
/-- Numeric facts about the scale constant, evaluated by the kernel. -/
theorem D_facts :
    (0 : ℤ) < D ∧ ipow 2 319 ≤ D ∧ D < ipow 2 320 ∧ nlog2 D.toNat = 319 ∧
      (1 : ℕ) ≤ D.toNat ∧ ipow 10 96 ≤ D ∧ D < ipow 10 97 ∧ nlog10 D.toNat = 96 := by
  refine ⟨by decide, by decide, by decide, by decide, by decide, by decide, by decide, by decide⟩

set_option maxRecDepth 40000 in
/-- The binary exponent assigned to a whole-unit amount j (value j, stored as
j * D) lies in the exact-significand window 0..52 when j < 2^53. -/
theorem fxExp2_int_range (j : ℤ) (h1 : 1 ≤ j) (h2 : j < 2 ^ 53) :
    0 ≤ fxExp2 (j * D) ∧ fxExp2 (j * D) ≤ 52 := by
  obtain ⟨hD0, hD319, hD320, hlogD, hD1, _, _, _⟩ := D_facts
  have hn : 0 < j * D := by positivity
  have hNn : ((j * D).toNat : ℤ) = j * D := Int.toNat_of_nonneg hn.le
  have hDle : D ≤ j * D := by
    calc D = 1 * D := (one_mul D).symm
      _ ≤ j * D := mul_le_mul_of_nonneg_right h1 hD0.le
  have hNlow : D.toNat ≤ (j * D).toNat := Int.toNat_le_toNat hDle
  have hNup : (j * D).toNat < 2 ^ 373 := by
    have hup : j * D < 2 ^ 373 := by
      have s1 : j * D < 2 ^ 53 * D := mul_lt_mul_of_pos_right h2 hD0
      have s2 : (2 : ℤ) ^ 53 * D ≤ 2 ^ 53 * 2 ^ 320 := by
        apply mul_le_mul_of_nonneg_left _ (by positivity)
        rw [← ipow_eq_pow]
        exact hD320.le
      calc j * D < 2 ^ 53 * D := s1
        _ ≤ 2 ^ 53 * 2 ^ 320 := s2
        _ = 2 ^ 373 := by rw [← pow_add]
    have hc : ((j * D).toNat : ℤ) < (((2 : ℕ) ^ 373 : ℕ) : ℤ) := by
      rw [hNn]
      push_cast
      exact hup
    exact_mod_cast hc
  have hN1 : 1 ≤ (j * D).toNat := le_trans hD1 hNlow
  have hN1000 : (j * D).toNat < 2 ^ 1000 :=
    lt_of_lt_of_le hNup (Nat.pow_le_pow_right (by norm_num) (by norm_num))
  obtain ⟨ha1, ha2⟩ := logBF_correct 2 (by norm_num) 1000 (j * D).toNat hN1 hN1000
  set a : ℕ := logBF 2 1000 (j * D).toNat with hadef
  have ha319 : 319 ≤ a := by
    have h319N : (2 : ℕ) ^ 319 ≤ D.toNat := by decide
    have hchain : (2 : ℕ) ^ 319 ≤ (j * D).toNat := le_trans h319N hNlow
    by_contra hcon
    push_neg at hcon
    have hmono : (2 : ℕ) ^ (a + 1) ≤ 2 ^ 319 := Nat.pow_le_pow_right (by norm_num) (by omega)
    omega
  have ha372 : a ≤ 372 := by
    by_contra hcon
    push_neg at hcon
    have hmono : (2 : ℕ) ^ 373 ≤ 2 ^ a := Nat.pow_le_pow_right (by norm_num) (by omega)
    omega
  have he0 : ((nlog2 (j * D).toNat : ℤ) - (nlog2 D.toNat : ℤ)) = (a : ℤ) - 319 := by
    rw [hlogD, hadef]
    norm_num [nlog2]
  have hunfold : fxExp2 (j * D) =
      if (if 0 ≤ ((nlog2 (j * D).toNat : ℤ) - (nlog2 D.toNat : ℤ)) then
            decide (ipow 2 ((nlog2 (j * D).toNat : ℤ) - (nlog2 D.toNat : ℤ)).toNat * D ≤ j * D)
          else decide (D ≤ (j * D) *
            ipow 2 (-((nlog2 (j * D).toNat : ℤ) - (nlog2 D.toNat : ℤ))).toNat)) = true
      then ((nlog2 (j * D).toNat : ℤ) - (nlog2 D.toNat : ℤ))
      else ((nlog2 (j * D).toNat : ℤ) - (nlog2 D.toNat : ℤ)) - 1 := rfl
  have hcondpos : (if 0 ≤ (a : ℤ) - 319 then
        decide (ipow 2 ((a : ℤ) - 319).toNat * D ≤ j * D)
      else decide (D ≤ (j * D) * ipow 2 (-((a : ℤ) - 319)).toNat))
      = decide (ipow 2 ((a : ℤ) - 319).toNat * D ≤ j * D) := if_pos (by omega)
  rw [hunfold, he0, hcondpos]
  by_cases hok : ipow 2 ((a : ℤ) - 319).toNat * D ≤ j * D
  · rw [if_pos (by rw [decide_eq_true_eq]; exact hok)]
    have hj : ipow 2 ((a : ℤ) - 319).toNat ≤ j := le_of_mul_le_mul_right hok hD0
    rw [ipow_eq_pow] at hj
    have hexplt : ((a : ℤ) - 319).toNat < 53 := by
      by_contra hcon
      push_neg at hcon
      have hple : (2 : ℤ) ^ 53 ≤ 2 ^ ((a : ℤ) - 319).toNat :=
        pow_le_pow_right₀ (by norm_num) hcon
      have := le_trans hple hj
      omega
    omega
  · rw [if_neg (by rw [decide_eq_true_eq]; exact hok)]
    have hane : ¬ ((a : ℤ) - 319 = 0) := by
      intro hzero
      apply hok
      rw [hzero]
      calc ipow 2 (0 : ℤ).toNat * D = 1 * D := rfl
        _ ≤ j * D := mul_le_mul_of_nonneg_right h1 hD0.le
    omega

/-- Binary64 rounding is exact on whole-unit amounts below 2^53: the value
j (j currency units, stored as the fixed-point integer j * D) is a dyadic
integer inside the exact significand range. -/
theorem fpRound_exact_int (j : ℤ) (h1 : 1 ≤ j) (h2 : j < 2 ^ 53) :
    fpRound (j * D) = j * D := by
  obtain ⟨hD0, _, _, _, _, _, _, _⟩ := D_facts
  obtain ⟨he0, he52⟩ := fxExp2_int_range j h1 h2
  have hnpos : 0 < j * D := mul_pos (by omega) hD0
  have hn0 : j * D ≠ 0 := ne_of_gt hnpos
  have hipos : ∀ k : ℕ, (0 : ℤ) < ipow 2 k := fun k => ipow_pos 2 (by norm_num) k
  have hunfold : fpRoundPos (j * D) =
      if 0 ≤ fxExp2 (j * D) - 52 then
        (if 0 ≤ 52 - fxExp2 (j * D) then
          divRNE ((j * D) * ipow 2 (52 - fxExp2 (j * D)).toNat) D
        else divRNE (j * D) (D * ipow 2 (fxExp2 (j * D) - 52).toNat)) *
          ipow 2 (fxExp2 (j * D) - 52).toNat * D
      else Int.fdiv
        ((if 0 ≤ 52 - fxExp2 (j * D) then
          divRNE ((j * D) * ipow 2 (52 - fxExp2 (j * D)).toNat) D
        else divRNE (j * D) (D * ipow 2 (fxExp2 (j * D) - 52).toNat)) * D)
        (ipow 2 (52 - fxExp2 (j * D)).toNat) := rfl
  have hmain : fpRoundPos (j * D) = j * D := by
    by_cases hE52 : fxExp2 (j * D) = 52
    · rw [hunfold, hE52]
      rw [if_pos (by omega), if_pos (by omega)]
      have h0 : ((52 : ℤ) - 52).toNat = 0 := rfl
      rw [h0]
      have hone : ipow 2 0 = 1 := rfl
      rw [hone]
      simp only [mul_one]
      rw [divRNE_mul_cancel j D hD0]
    · rw [hunfold]
      rw [if_neg (by omega), if_pos (by omega)]
      have hcomm : (j * D) * ipow 2 (52 - fxExp2 (j * D)).toNat
          = (j * ipow 2 (52 - fxExp2 (j * D)).toNat) * D := by ring
      rw [hcomm, divRNE_mul_cancel _ D hD0]
      have hcomm2 : (j * ipow 2 (52 - fxExp2 (j * D)).toNat) * D
          = (j * D) * ipow 2 (52 - fxExp2 (j * D)).toNat := by ring
      rw [hcomm2, Int.mul_fdiv_cancel _ (ne_of_gt (hipos _))]
  unfold fpRound
  rw [if_neg hn0, if_pos hnpos, hmain]

/-- Python float summation is exact on positive whole-unit amounts as long as
the running total stays below 2^53 units. -/
theorem foldl_fpAdd_exact_int (l : List ℤ) :
    ∀ A : ℤ, 0 ≤ A →
      (∀ v ∈ l, ∃ j : ℤ, 1 ≤ j ∧ v = j * D) →
      A * D + l.sum < 2 ^ 53 * D →
      l.foldl fpAdd (A * D) = A * D + l.sum := by
  obtain ⟨hD0, _, _, _, _, _, _, _⟩ := D_facts
  induction l with
  | nil =>
    intro A hA hm hb
    simp
  | cons v rest ih =>
    intro A hA hm hb
    obtain ⟨j, hj1, hjv⟩ := hm v (List.mem_cons_self _ _)
    have hrest : ∀ w ∈ rest, ∃ j : ℤ, 1 ≤ j ∧ w = j * D :=
      fun w hw => hm w (List.mem_cons_of_mem _ hw)
    have hsum_nonneg : 0 ≤ rest.sum := by
      apply List.sum_nonneg
      intro x hx
      obtain ⟨k, hk1, hkx⟩ := hrest x hx
      rw [hkx]
      exact le_of_lt (mul_pos (by omega) hD0)
    have hcons : (v :: rest).sum = v + rest.sum := List.sum_cons
    have hjbound : A + j < 2 ^ 53 := by
      have hlt : (A + j) * D < 2 ^ 53 * D := by
        have hx : (A + j) * D = A * D + v := by rw [hjv]; ring
        rw [hcons] at hb
        linarith
      exact lt_of_mul_lt_mul_right hlt hD0.le
    have hstep : fpAdd (A * D) v = (A + j) * D := by
      unfold fpAdd
      rw [hjv]
      have hx : A * D + j * D = (A + j) * D := by ring
      rw [hx]
      exact fpRound_exact_int (A + j) (by omega) hjbound
    rw [List.foldl_cons, hstep]
    have hrec := ih (A + j) (by omega) hrest (by
      have hx : (A + j) * D + rest.sum = A * D + (v :: rest).sum := by
        rw [hcons, hjv]
        ring
      rw [hx]
      exact hb)
    rw [hrec, hcons, hjv]
    ring

/-- One cent in fixed-point units: the representation of the value 1/100. -/
def centUnit : ℤ := ipow 10 58 * ipow 2 120

/-- ipow distributes over exponent addition. -/
theorem ipow_add (b : ℤ) (m n : ℕ) : ipow b (m + n) = ipow b m * ipow b n := by
  rw [ipow_eq_pow, ipow_eq_pow, ipow_eq_pow, pow_add]

set_option maxRecDepth 40000 in
/-- Kernel-checked facts about the cent unit. -/
theorem centUnit_facts :
    (0 : ℤ) < centUnit ∧ D = 100 * centUnit ∧ centUnit < ipow 10 95 ∧
      (1 : ℕ) ≤ centUnit.toNat ∧ centUnit ≤ D := by
  refine ⟨by decide, by decide, by decide, by decide, by decide⟩

set_option maxRecDepth 40000 in
/-- The decimal exponent assigned to a cent amount M (value M/100, stored as
M * centUnit) stays at most 25 when M < 10^28, which keeps the 28-digit
context rounding of roundSigPos exact on such values. -/
theorem fxExp10_cent_upper (M : ℤ) (h1 : 1 ≤ M) (h2 : M < 10 ^ 28) :
    fxExp10 (M * centUnit) ≤ 25 := by
  obtain ⟨hcu0, hDcu, hcu95, hcu1, hcuD⟩ := centUnit_facts
  obtain ⟨hD0, _, _, _, _, _, _, hlog10D⟩ := D_facts
  have hnpos : 0 < M * centUnit := mul_pos (by omega) hcu0
  have hNn : ((M * centUnit).toNat : ℤ) = M * centUnit := Int.toNat_of_nonneg hnpos.le
  have hcule : centUnit ≤ M * centUnit := by
    calc centUnit = 1 * centUnit := (one_mul _).symm
      _ ≤ M * centUnit := mul_le_mul_of_nonneg_right h1 hcu0.le
  have hN1 : 1 ≤ (M * centUnit).toNat := le_trans hcu1 (Int.toNat_le_toNat hcule)
  have hNup : (M * centUnit).toNat < 10 ^ 123 := by
    have hup : M * centUnit < 10 ^ 123 := by
      have s1 : M * centUnit < 10 ^ 28 * centUnit := mul_lt_mul_of_pos_right h2 hcu0
      have s2 : (10 : ℤ) ^ 28 * centUnit ≤ 10 ^ 28 * 10 ^ 95 := by
        apply mul_le_mul_of_nonneg_left _ (by positivity)
        rw [← ipow_eq_pow]
        exact hcu95.le
      calc M * centUnit < 10 ^ 28 * centUnit := s1
        _ ≤ 10 ^ 28 * 10 ^ 95 := s2
        _ = 10 ^ 123 := by rw [← pow_add]
    have hc : ((M * centUnit).toNat : ℤ) < (((10 : ℕ) ^ 123 : ℕ) : ℤ) := by
      rw [hNn]
      push_cast
      exact hup
    exact_mod_cast hc
  have hN1000 : (M * centUnit).toNat < 10 ^ 1000 :=
    lt_of_lt_of_le hNup (Nat.pow_le_pow_right (by norm_num) (by norm_num))
  obtain ⟨ha1, ha2⟩ := logBF_correct 10 (by norm_num) 1000 (M * centUnit).toNat hN1 hN1000
  set a : ℕ := logBF 10 1000 (M * centUnit).toNat with hadef
  have ha122 : a ≤ 122 := by
    by_contra hcon
    push_neg at hcon
    have hmono : (10 : ℕ) ^ 123 ≤ 10 ^ a := Nat.pow_le_pow_right (by norm_num) (by omega)
    omega
  have he0 : ((nlog10 (M * centUnit).toNat : ℤ) - (nlog10 D.toNat : ℤ)) = (a : ℤ) - 96 := by
    rw [hlog10D, hadef]
    norm_num [nlog10]
  have hunfold : fxExp10 (M * centUnit) =
      if (if 0 ≤ ((nlog10 (M * centUnit).toNat : ℤ) - (nlog10 D.toNat : ℤ)) then
            decide (ipow 10 ((nlog10 (M * centUnit).toNat : ℤ) -
              (nlog10 D.toNat : ℤ)).toNat * D ≤ M * centUnit)
          else decide (D ≤ (M * centUnit) *
            ipow 10 (-((nlog10 (M * centUnit).toNat : ℤ) - (nlog10 D.toNat : ℤ))).toNat)) = true
      then ((nlog10 (M * centUnit).toNat : ℤ) - (nlog10 D.toNat : ℤ))
      else ((nlog10 (M * centUnit).toNat : ℤ) - (nlog10 D.toNat : ℤ)) - 1 := rfl
  rw [hunfold, he0]
  by_cases hpos : 0 ≤ (a : ℤ) - 96
  · have hcondpos : (if 0 ≤ (a : ℤ) - 96 then
          decide (ipow 10 ((a : ℤ) - 96).toNat * D ≤ M * centUnit)
        else decide (D ≤ (M * centUnit) * ipow 10 (-((a : ℤ) - 96)).toNat))
        = decide (ipow 10 ((a : ℤ) - 96).toNat * D ≤ M * centUnit) := if_pos hpos
    rw [hcondpos]
    by_cases hok : ipow 10 ((a : ℤ) - 96).toNat * D ≤ M * centUnit
    · rw [if_pos (by rw [decide_eq_true_eq]; exact hok)]
      have hM : ipow 10 ((a : ℤ) - 96).toNat * 100 ≤ M := by
        have hx : ipow 10 ((a : ℤ) - 96).toNat * D
            = (ipow 10 ((a : ℤ) - 96).toNat * 100) * centUnit := by
          rw [hDcu]
          ring
        rw [hx] at hok
        exact le_of_mul_le_mul_right hok hcu0
      rw [ipow_eq_pow] at hM
      have hexplt : ((a : ℤ) - 96).toNat < 26 := by
        by_contra hcon
        push_neg at hcon
        have hple : (10 : ℤ) ^ 26 ≤ 10 ^ ((a : ℤ) - 96).toNat :=
          pow_le_pow_right₀ (by norm_num) hcon
        have hbig : (10 : ℤ) ^ 26 * 100 ≤ M :=
          le_trans (mul_le_mul_of_nonneg_right hple (by norm_num)) hM
        omega
      omega
    · rw [if_neg (by rw [decide_eq_true_eq]; exact hok)]
      omega
  · have hcondneg : (if 0 ≤ (a : ℤ) - 96 then
          decide (ipow 10 ((a : ℤ) - 96).toNat * D ≤ M * centUnit)
        else decide (D ≤ (M * centUnit) * ipow 10 (-((a : ℤ) - 96)).toNat))
        = decide (D ≤ (M * centUnit) * ipow 10 (-((a : ℤ) - 96)).toNat) := if_neg hpos
    rw [hcondneg]
    cases hd : decide (D ≤ (M * centUnit) * ipow 10 (-((a : ℤ) - 96)).toNat) with
    | false =>
      rw [if_neg Bool.false_ne_true]
      omega
    | true =>
      rw [if_pos rfl]
      omega

/-- The 28-digit context rounding is exact on positive cent amounts below
10^28 cents. -/
theorem roundSigPos_cent (M : ℤ) (h1 : 1 ≤ M) (h2 : M < 10 ^ 28) :
    roundSigPos 28 (M * centUnit) = M * centUnit := by
  obtain ⟨hcu0, hDcu, _, _, _⟩ := centUnit_facts
  obtain ⟨hD0, _, _, _, _, _, _, _⟩ := D_facts
  have he25 := fxExp10_cent_upper M h1 h2
  have hipos : ∀ k : ℕ, (0 : ℤ) < ipow 10 k := fun k => ipow_pos 10 (by norm_num) k
  have hunfold : roundSigPos 28 (M * centUnit) =
      if 0 ≤ fxExp10 (M * centUnit) - (28 : ℕ) + 1 then
        (if 0 ≤ ((28 : ℕ) : ℤ) - 1 - fxExp10 (M * centUnit) then
          divRNE ((M * centUnit) *
            ipow 10 (((28 : ℕ) : ℤ) - 1 - fxExp10 (M * centUnit)).toNat) D
        else divRNE (M * centUnit)
          (D * ipow 10 (-(((28 : ℕ) : ℤ) - 1 - fxExp10 (M * centUnit))).toNat)) *
          ipow 10 (fxExp10 (M * centUnit) - (28 : ℕ) + 1).toNat * D
      else Int.fdiv
        ((if 0 ≤ ((28 : ℕ) : ℤ) - 1 - fxExp10 (M * centUnit) then
          divRNE ((M * centUnit) *
            ipow 10 (((28 : ℕ) : ℤ) - 1 - fxExp10 (M * centUnit)).toNat) D
        else divRNE (M * centUnit)
          (D * ipow 10 (-(((28 : ℕ) : ℤ) - 1 - fxExp10 (M * centUnit))).toNat)) * D)
        (ipow 10 (((28 : ℕ) : ℤ) - 1 - fxExp10 (M * centUnit)).toNat) := rfl
  rw [hunfold]
  rw [if_neg (by push_cast; omega), if_pos (by push_cast; omega)]
  set k : ℕ := (((28 : ℕ) : ℤ) - 1 - fxExp10 (M * centUnit)).toNat with hkdef
  have hk2 : 2 ≤ k := by
    rw [hkdef]
    omega
  have hsplit : ipow 10 k = ipow 10 (k - 2) * 100 := by
    have hx : k = (k - 2) + 2 := by omega
    calc ipow 10 k = ipow 10 ((k - 2) + 2) := by rw [← hx]
      _ = ipow 10 (k - 2) * ipow 10 2 := ipow_add 10 (k - 2) 2
      _ = ipow 10 (k - 2) * 100 := by
          have h100 : ipow 10 2 = (100 : ℤ) := by decide
          rw [h100]
  have hrearr : (M * centUnit) * ipow 10 k = (M * ipow 10 (k - 2)) * D := by
    rw [hsplit, hDcu]
    ring
  rw [hrearr, divRNE_mul_cancel _ D hD0]
  have hrearr2 : (M * ipow 10 (k - 2)) * D = (M * centUnit) * ipow 10 k := by
    rw [hsplit, hDcu]
    ring
  rw [hrearr2, Int.mul_fdiv_cancel _ (ne_of_gt (hipos k))]

/-- The 28-digit context rounding is exact on any cent amount of magnitude
below 10^28 cents, zero and negatives included. -/
theorem roundSig28_cent (z : ℤ) (hz : z < 10 ^ 28) (hz2 : -(10 ^ 28) < z) :
    roundSig 28 (z * centUnit) = z * centUnit := by
  obtain ⟨hcu0, _, _, _, _⟩ := centUnit_facts
  rcases lt_trichotomy z 0 with hneg | hzero | hpos
  · have hn : z * centUnit < 0 := mul_neg_of_neg_of_pos hneg hcu0
    unfold roundSig
    rw [if_neg (by omega), if_neg (by omega)]
    have hx : -(z * centUnit) = (-z) * centUnit := by ring
    rw [hx, roundSigPos_cent (-z) (by omega) (by omega)]
    ring
  · rw [hzero]
    simp [roundSig]
  · have hn : 0 < z * centUnit := mul_pos hpos hcu0
    unfold roundSig
    rw [if_neg (by omega), if_pos hn]
    exact roundSigPos_cent z (by omega) hz

/-- Decimal addition under the default context is exact on cent amounts. -/
theorem decAdd_cent (x y : ℤ) (hx : 0 ≤ x) (hy : 0 ≤ y) (hb : x + y < 10 ^ 28) :
    decAdd (x * centUnit) (y * centUnit) = (x + y) * centUnit := by
  unfold decAdd
  have hs : x * centUnit + y * centUnit = (x + y) * centUnit := by ring
  rw [hs]
  exact roundSig28_cent (x + y) hb (by omega)

/-- Decimal subtraction under the default context is exact on cent amounts. -/
theorem decSub_cent (x y : ℤ) (hx : x < 10 ^ 28) (hy : y < 10 ^ 28)
    (hx0 : 0 ≤ x) (hy0 : 0 ≤ y) :
    decSub (x * centUnit) (y * centUnit) = (x - y) * centUnit := by
  unfold decSub
  have hs : x * centUnit - y * centUnit = (x - y) * centUnit := by ring
  rw [hs]
  exact roundSig28_cent (x - y) (by omega) (by omega)

/-- The Decimal accumulation of the cash-flow functions is exact when every
amount reads back as a whole number of cents between one cent and 10^13
currency units, and the list is no longer than 10^9 records. -/
theorem foldl_decAdd_exact (l : List ℤ) :
    ∀ A : ℤ, 0 ≤ A →
      (∀ v ∈ l, ∃ m : ℕ, 1 ≤ m ∧ (m : ℤ) ≤ 10 ^ 15 ∧ decRead v = (m : ℤ) * centUnit) →
      A + l.length * 10 ^ 15 ≤ 10 ^ 27 →
      l.foldl (fun a v => decAdd a (decRead v)) (A * centUnit)
        = A * centUnit + (l.map decRead).sum := by
  induction l with
  | nil =>
    intro A hA hm hb
    simp
  | cons v rest ih =>
    intro A hA hm hb
    obtain ⟨m, hm1, hm15, hmv⟩ := hm v (List.mem_cons_self _ _)
    have hrest : ∀ w ∈ rest, ∃ m : ℕ, 1 ≤ m ∧ (m : ℤ) ≤ 10 ^ 15 ∧
        decRead w = (m : ℤ) * centUnit :=
      fun w hw => hm w (List.mem_cons_of_mem _ hw)
    have hlen : (rest.length : ℤ) + 1 = ((v :: rest).length : ℤ) := by
      rw [List.length_cons]
      push_cast
      ring
    have hstep : decAdd (A * centUnit) (decRead v) = (A + m) * centUnit := by
      rw [hmv]
      exact decAdd_cent A m hA (by omega) (by
        have : ((v :: rest).length : ℤ) ≥ 1 := by
          rw [List.length_cons]
          push_cast
          omega
        nlinarith [hb])
    rw [List.foldl_cons, hstep]
    have hrec := ih (A + m) (by omega) hrest (by
      have hx : ((v :: rest).length : ℤ) = (rest.length : ℤ) + 1 := hlen.symm
      nlinarith [hb])
    rw [hrec, List.map_cons, List.sum_cons, hmv]
    ring



/- ----------------------------------------------------------------- -/
/- C1: the monetary sums of relatorio_financeiro.                     -/
/- ----------------------------------------------------------------- -/

/-- A payable of 0.10 in category outros. -/
def cpDimeA : ContaPagar :=
  { cpRent with id := "CP001", categoria := "outros", valor := pyFloat 1 (-1) }

/-- A payable of 0.20 in category outros. -/
def cpDimeB : ContaPagar :=
  { cpRent with id := "CP002", categoria := "outros", valor := pyFloat 2 (-1) }

set_option maxRecDepth 40000 in
/-- C1 counterexample: the stored doubles for the literals 0.10 and 0.20 read
back as the decimals 0.1 and 0.2 (so their exact decimal sum is 0.3), yet the
reported total_pagar of a store holding exactly these two payables is the
float sum, which differs from 0.3. -/
theorem C1_counterexample :
    decRead (pyFloat 1 (-1)) = fxDec 1 (-1) ∧
    decRead (pyFloat 2 (-1)) = fxDec 2 (-1) ∧
    (relatorio_financeiro ⟨[cpDimeA, cpDimeB], [], catPagarPadrao, catReceberPadrao⟩
        none none).resumo.total_pagar ≠ fxDec 3 (-1) := by
  refine ⟨by decide, by decide, by decide⟩

/-- C1 corrected: every monetary total of relatorio_financeiro is a Python
float sum — a left fold of binary64 addition over the filtered amounts — and
the two balances are float subtractions, not fixed-point decimal
accumulation; such a fold is exact when every amount is a whole number of
currency units and the total stays below 2^53 units, but it drifts on cent
amounts (0.10 + 0.20 totals 0.30000000000000004, see C1_counterexample). -/
theorem C1_sums_are_float_folds (s : Sistema) (d1 d2 : Option String) :
    ((relatorio_financeiro s d1 d2).resumo.total_pagar
        = pyFloatSum (((relFiltroPagar s d1 d2).filter (fun c => c.ativo)).map (fun c => c.valor)) ∧
      (relatorio_financeiro s d1 d2).resumo.total_receber
        = pyFloatSum (((relFiltroReceber s d1 d2).filter (fun c => c.ativo)).map (fun c => c.valor)) ∧
      (relatorio_financeiro s d1 d2).resumo.total_pago
        = pyFloatSum (((relFiltroPagar s d1 d2).filter
            (fun c => c.ativo && c.status == "pago")).map (fun c => c.valor)) ∧
      (relatorio_financeiro s d1 d2).resumo.total_recebido
        = pyFloatSum (((relFiltroReceber s d1 d2).filter
            (fun c => c.ativo && c.status == "recebido")).map (fun c => c.valor)) ∧
      (relatorio_financeiro s d1 d2).resumo.total_pagar_pendente
        = pyFloatSum (((relFiltroPagar s d1 d2).filter
            (fun c => c.ativo && c.status == "pendente")).map (fun c => c.valor)) ∧
      (relatorio_financeiro s d1 d2).resumo.total_receber_pendente
        = pyFloatSum (((relFiltroReceber s d1 d2).filter
            (fun c => c.ativo && c.status == "pendente")).map (fun c => c.valor)) ∧
      (relatorio_financeiro s d1 d2).resumo.total_pagar_atrasado
        = pyFloatSum (((relFiltroPagar s d1 d2).filter
            (fun c => c.ativo && c.status_vencimento == "atrasado")).map (fun c => c.valor)) ∧
      (relatorio_financeiro s d1 d2).resumo.total_receber_atrasado
        = pyFloatSum (((relFiltroReceber s d1 d2).filter
            (fun c => c.ativo && c.status_vencimento == "atrasado")).map (fun c => c.valor)) ∧
      (relatorio_financeiro s d1 d2).resumo.saldo
        = fpSub (relatorio_financeiro s d1 d2).resumo.total_recebido
            (relatorio_financeiro s d1 d2).resumo.total_pago ∧
      (relatorio_financeiro s d1 d2).resumo.saldo_futuro
        = fpSub (relatorio_financeiro s d1 d2).resumo.total_receber
            (relatorio_financeiro s d1 d2).resumo.total_pagar) ∧
    (∀ l : List ℤ, (∀ v ∈ l, ∃ j : ℤ, 1 ≤ j ∧ v = j * D) → l.sum < 2 ^ 53 * D →
      pyFloatSum l = l.sum) := by
  refine ⟨⟨rfl, rfl, rfl, rfl, rfl, rfl, rfl, rfl, rfl, rfl⟩, ?_⟩
  intro l hm hb
  have h := foldl_fpAdd_exact_int l 0 le_rfl hm (by simpa using hb)
  simpa [pyFloatSum] using h

set_option maxRecDepth 100000 in
/-- Witness for C1 at a concrete store and a concrete whole-unit sum. -/
theorem C1_witness :
    (relatorio_financeiro ⟨[cpRent], [crSale], catPagarPadrao, catReceberPadrao⟩
        none none).resumo.total_pagar = pyFloatSum [pyFloat 15 2] ∧
      pyFloatSum [(1500 : ℤ) * D] = 1500 * D := by
  have h := C1_sums_are_float_folds
    ⟨[cpRent], [crSale], catPagarPadrao, catReceberPadrao⟩ none none
  refine ⟨h.1.1.trans rfl, ?_⟩
  refine h.2 [(1500 : ℤ) * D] ?_ ?_
  · intro v hv
    refine ⟨1500, by norm_num, ?_⟩
    simpa using hv
  · have hD0 := D_facts.1
    have h2 : (1500 : ℤ) * D < 2 ^ 53 * D :=
      mul_lt_mul_of_pos_right (by norm_num) hD0
    simpa using h2


/- ----------------------------------------------------------------- -/
/- C3: per-category subtotals versus grand totals.                    -/
/- ----------------------------------------------------------------- -/

/-- One step of Python dict key collection: append the key when unseen. -/
def addKey (ks : List String) (k : String) : List String :=
  if k ∈ ks then ks else ks ++ [k]

/-- The distinct keys of a list in first-occurrence order, the key order of a
Python dict built by indexed insertion. -/
def keyList (xs : List String) : List String := xs.foldl addKey []

/-- Membership in addKey. -/
theorem mem_addKey (acc : List String) (y x : String) :
    x ∈ addKey acc y ↔ x ∈ acc ∨ x = y := by
  unfold addKey
  by_cases hy : y ∈ acc
  · rw [if_pos hy]
    constructor
    · exact Or.inl
    · rintro (h | rfl)
      · exact h
      · exact hy
  · rw [if_neg hy]
    simp [List.mem_append]

/-- Membership in the key fold. -/
theorem mem_foldl_addKey (xs : List String) :
    ∀ (acc : List String) (x : String), x ∈ xs.foldl addKey acc ↔ x ∈ acc ∨ x ∈ xs := by
  induction xs with
  | nil => intro acc x; simp
  | cons y ys ih =>
    intro acc x
    rw [List.foldl_cons, ih (addKey acc y) x, mem_addKey]
    simp [List.mem_cons]
    tauto

/-- Membership in keyList is membership in the underlying list. -/
theorem mem_keyList (xs : List String) (x : String) : x ∈ keyList xs ↔ x ∈ xs := by
  rw [keyList, mem_foldl_addKey]
  simp

/-- addKey preserves freedom from duplicates. -/
theorem nodup_addKey (acc : List String) (y : String) (h : acc.Nodup) :
    (addKey acc y).Nodup := by
  unfold addKey
  by_cases hy : y ∈ acc
  · rw [if_pos hy]; exact h
  · rw [if_neg hy]
    rw [List.nodup_append]
    refine ⟨h, List.nodup_singleton y, ?_⟩
    intro a ha hb
    rw [List.mem_singleton] at hb
    subst hb
    exact hy ha

/-- The key fold is duplicate-free. -/
theorem nodup_foldl_addKey (xs : List String) :
    ∀ acc : List String, acc.Nodup → (xs.foldl addKey acc).Nodup := by
  induction xs with
  | nil => intro acc h; simpa using h
  | cons y ys ih =>
    intro acc h
    rw [List.foldl_cons]
    exact ih (addKey acc y) (nodup_addKey acc y h)

/-- keyList is duplicate-free. -/
theorem keyList_nodup (xs : List String) : (keyList xs).Nodup :=
  nodup_foldl_addKey xs [] List.nodup_nil

/-- Splitting a conjunctive filter into two passes. -/
theorem filter_and {α : Type} (p q : α → Bool) (l : List α) :
    l.filter (fun x => p x && q x) = (l.filter p).filter q := by
  induction l with
  | nil => rfl
  | cons x xs ih =>
    by_cases hp : p x = true <;> by_cases hq : q x = true <;>
      simp [List.filter_cons, hp, hq, ih]

/-- Splitting a three-way conjunctive filter, pulling the middle conjunct
out as the second pass. -/
theorem filter_and3 {α : Type} (p q r : α → Bool) (l : List α) :
    l.filter (fun x => p x && (q x && r x)) = (l.filter (fun x => p x && r x)).filter q := by
  induction l with
  | nil => rfl
  | cons x xs ih =>
    by_cases hp : p x = true <;> by_cases hq : q x = true <;> by_cases hr : r x = true <;>
      simp [List.filter_cons, hp, hq, hr, ih]

/-- Sums of mapped pointwise additions split. -/
theorem sum_map_add {α : Type} (f g : α → ℤ) (l : List α) :
    (l.map (fun x => f x + g x)).sum = (l.map f).sum + (l.map g).sum := by
  induction l with
  | nil => simp
  | cons x xs ih =>
    simp only [List.map_cons, List.sum_cons, ih]
    ring

/-- Summing an indicator over a duplicate-free list containing the key picks
out the single value. -/
theorem sum_ite_single (key : String) (v : ℤ) (K : List String) (hnd : K.Nodup)
    (hmem : key ∈ K) :
    (K.map (fun k => if key == k then v else 0)).sum = v := by
  induction K with
  | nil => cases hmem
  | cons k ks ih =>
    rcases List.mem_cons.mp hmem with rfl | hm
    · simp only [List.map_cons, List.sum_cons]
      have hnot : key ∉ ks := (List.nodup_cons.mp hnd).1
      have hz : (ks.map (fun k2 => if key == k2 then v else 0)).sum = 0 := by
        apply List.sum_eq_zero
        intro y hy
        rw [List.mem_map] at hy
        obtain ⟨k2, hk2, hval⟩ := hy
        rw [← hval, if_neg]
        simp only [beq_iff_eq]
        rintro rfl
        exact hnot hk2
      rw [hz, if_pos (by simp)]
      ring
    · have hne : key ≠ k := by
        rintro rfl
        exact (List.nodup_cons.mp hnd).1 hm
      simp only [List.map_cons, List.sum_cons]
      rw [if_neg (by simpa [beq_iff_eq] using hne),
        ih (List.nodup_cons.mp hnd).2 hm]
      ring

/-- Grouping a sum by a covering duplicate-free key list loses nothing: the
sum of the per-key filtered sums is the whole sum. -/
theorem sum_groups {α : Type} (key : α → String) (val : α → ℤ) (K : List String)
    (hnd : K.Nodup) (l : List α) (hcov : ∀ x ∈ l, key x ∈ K) :
    (K.map (fun k => ((l.filter (fun x => key x == k)).map val).sum)).sum
      = (l.map val).sum := by
  induction l with
  | nil => simp
  | cons x xs ih =>
    have hx : key x ∈ K := hcov x (List.mem_cons_self _ _)
    have hxs : ∀ y ∈ xs, key y ∈ K := fun y hy => hcov y (List.mem_cons_of_mem _ hy)
    have hsplit : ∀ k ∈ K,
        (((x :: xs).filter (fun y => key y == k)).map val).sum
          = (if key x == k then val x else 0)
            + ((xs.filter (fun y => key y == k)).map val).sum := by
      intro k _
      by_cases hk : (key x == k) = true <;> simp [List.filter_cons, hk]
    calc (K.map (fun k => (((x :: xs).filter (fun y => key y == k)).map val).sum)).sum
        = (K.map (fun k => (if key x == k then val x else 0)
            + ((xs.filter (fun y => key y == k)).map val).sum)).sum := by
          exact congrArg List.sum (List.map_congr_left hsplit)
      _ = (K.map (fun k => if key x == k then val x else 0)).sum
            + (K.map (fun k => ((xs.filter (fun y => key y == k)).map val).sum)).sum :=
          sum_map_add _ _ K
      _ = val x + (xs.map val).sum := by
          rw [sum_ite_single (key x) (val x) K hnd hx, ih hxs]
      _ = ((x :: xs).map val).sum := by simp

/-- The float bucket that the per-category analysis of the report builds for
key k out of a record list: each field folds float addition over the amounts
of the active records of category k, the pago field over the paid ones, the
pendente field over the unpaid ones. -/
def catFoldPagar (l : List ContaPagar) (k : String) : CatPagarTot :=
  ⟨pyFloatSum ((l.filter (fun c => c.ativo && c.categoria == k)).map (fun c => c.valor)),
   pyFloatSum ((l.filter (fun c => c.ativo && (c.categoria == k && c.status == "pago"))).map
     (fun c => c.valor)),
   pyFloatSum ((l.filter (fun c => c.ativo && (c.categoria == k && !(c.status == "pago")))).map
     (fun c => c.valor))⟩

/-- Appending a record updates the bucket of its own category through
catUpdPagar and leaves every other bucket alone; an inactive record changes
nothing. -/
theorem catFoldPagar_append (p : List ContaPagar) (c : ContaPagar) (k : String) :
    catFoldPagar (p ++ [c]) k =
      if c.ativo && c.categoria == k then catUpdPagar (catFoldPagar p k) c
      else catFoldPagar p k := by
  by_cases hA : c.ativo = true
  · by_cases hk : (c.categoria == k) = true
    · rw [if_pos (by rw [hA, hk]; rfl)]
      by_cases hst : (c.status == "pago") = true <;>
        simp [catFoldPagar, catUpdPagar, pyFloatSum, List.filter_append, List.filter_cons,
          hA, hk, hst, List.foldl_append]
    · have hk2 : (c.categoria == k) = false := Bool.eq_false_iff.mpr hk
      rw [if_neg (by simp [hk2])]
      simp [catFoldPagar, List.filter_append, List.filter_cons, hA, hk2]
  · have hA2 : c.ativo = false := Bool.eq_false_iff.mpr hA
    rw [if_neg (by simp [hA2])]
    simp [catFoldPagar, List.filter_append, List.filter_cons, hA2]

/-- A key absent from the active categories of a list has the zero bucket. -/
theorem catFoldPagar_absent (p : List ContaPagar) (k : String)
    (h : ∀ x ∈ p, ¬(x.ativo = true ∧ x.categoria = k)) :
    catFoldPagar p k = ⟨0, 0, 0⟩ := by
  have hnil : ∀ r : ContaPagar → Bool,
      p.filter (fun c => c.ativo && (c.categoria == k && r c)) = [] := by
    intro r
    rw [List.filter_eq_nil]
    intro a ha
    intro hcon
    rw [Bool.and_eq_true, Bool.and_eq_true, beq_iff_eq] at hcon
    exact h a ha ⟨hcon.1, hcon.2.1⟩
  have hnil2 : p.filter (fun c => c.ativo && c.categoria == k) = [] := by
    rw [List.filter_eq_nil]
    intro a ha hcon
    rw [Bool.and_eq_true, beq_iff_eq] at hcon
    exact h a ha ⟨hcon.1, hcon.2⟩
  rw [catFoldPagar, hnil2, hnil (fun c => c.status == "pago"),
    hnil (fun c => !(c.status == "pago"))]
  rfl

/-- keyList over an appended single element is one addKey step. -/
theorem keyList_append_one (xs : List String) (y : String) :
    keyList (xs ++ [y]) = addKey (keyList xs) y := by
  simp [keyList, List.foldl_append]

/-- One catStepPagar step preserves the bucket-map invariant: starting from
the exact bucket map of the processed prefix p, processing c yields the exact
bucket map of p ++ [c]. -/
theorem catStepPagar_step (p : List ContaPagar) (c : ContaPagar) :
    catStepPagar
        ((keyList ((p.filter (fun x => x.ativo)).map (fun x => x.categoria))).map
          (fun k => (k, catFoldPagar p k))) c
      = (keyList (((p ++ [c]).filter (fun x => x.ativo)).map (fun x => x.categoria))).map
          (fun k => (k, catFoldPagar (p ++ [c]) k)) := by
  set K := keyList ((p.filter (fun x => x.ativo)).map (fun x => x.categoria)) with hK
  by_cases hA : c.ativo = true
  · have hkeys : (((p ++ [c]).filter (fun x => x.ativo)).map (fun x => x.categoria))
        = ((p.filter (fun x => x.ativo)).map (fun x => x.categoria)) ++ [c.categoria] := by
      simp [List.filter_append, List.filter_cons, hA]
    rw [hkeys, keyList_append_one, ← hK]
    unfold catStepPagar
    rw [if_pos hA]
    by_cases hmem : c.categoria ∈ K
    · have hanyT : ((K.map (fun k => (k, catFoldPagar p k))).any
          (fun q => q.1 == c.categoria)) = true := by
        rw [List.any_eq_true]
        exact ⟨(c.categoria, catFoldPagar p c.categoria),
          List.mem_map_of_mem _ hmem, by simp⟩
      rw [if_pos hanyT]
      unfold addKey
      rw [if_pos hmem, List.map_map]
      apply List.map_congr_left
      intro k hk
      simp only [Function.comp]
      by_cases hck : (k == c.categoria) = true
      · have hkc : k = c.categoria := by simpa [beq_iff_eq] using hck
        subst hkc
        rw [if_pos (by simp)]
        have h := catFoldPagar_append p c c.categoria
        rw [if_pos (by simp [hA])] at h
        rw [h]
      · have hne : ¬ k = c.categoria := by simpa [beq_iff_eq] using hck
        rw [if_neg (by simpa [beq_iff_eq] using hne)]
        have hcf : (c.categoria == k) = false := by
          rw [beq_eq_false_iff_ne]
          intro he
          exact hne he.symm
        have h := catFoldPagar_append p c k
        rw [if_neg (by simp [hcf])] at h
        rw [h]
    · have hanyF : ((K.map (fun k => (k, catFoldPagar p k))).any
          (fun q => q.1 == c.categoria)) = false := by
        refine Bool.eq_false_iff.mpr ?_
        intro hcon
        rw [List.any_eq_true] at hcon
        obtain ⟨q, hqmem, hqeq⟩ := hcon
        rw [List.mem_map] at hqmem
        obtain ⟨k, hkK, rfl⟩ := hqmem
        have hke : k = c.categoria := by simpa [beq_iff_eq] using hqeq
        exact hmem (hke ▸ hkK)
      rw [if_neg (by simp [hanyF])]
      unfold addKey
      rw [if_neg hmem, List.map_append, List.map_append, List.map_map]
      have hpartA : (K.map ((fun q : String × CatPagarTot =>
            if q.1 == c.categoria then (q.1, catUpdPagar q.2 c) else q) ∘
            (fun k => (k, catFoldPagar p k))))
          = K.map (fun k => (k, catFoldPagar (p ++ [c]) k)) := by
        apply List.map_congr_left
        intro k hk
        simp only [Function.comp]
        have hne : ¬ k = c.categoria := by
          rintro rfl
          exact hmem hk
        rw [if_neg (by simpa [beq_iff_eq] using hne)]
        have hcf : (c.categoria == k) = false := by
          rw [beq_eq_false_iff_ne]
          intro he
          exact hne he.symm
        have h := catFoldPagar_append p c k
        rw [if_neg (by simp [hcf])] at h
        rw [h]
      have hzero : catFoldPagar p c.categoria = ⟨0, 0, 0⟩ := by
        apply catFoldPagar_absent
        intro x hx
        rintro ⟨hxa, hxc⟩
        apply hmem
        rw [hK, mem_keyList, List.mem_map]
        exact ⟨x, List.mem_filter.mpr ⟨hx, hxa⟩, hxc⟩
      have hpartB : ([(c.categoria, (⟨0, 0, 0⟩ : CatPagarTot))].map (fun q =>
            if q.1 == c.categoria then (q.1, catUpdPagar q.2 c) else q))
          = [(c.categoria, catFoldPagar (p ++ [c]) c.categoria)] := by
        simp only [List.map_cons, List.map_nil]
        rw [if_pos (by simp)]
        have h := catFoldPagar_append p c c.categoria
        rw [if_pos (by simp [hA])] at h
        rw [h, hzero]
      rw [hpartA, hpartB]
      simp only [List.map_cons, List.map_nil]
  · have hA2 : c.ativo = false := Bool.eq_false_iff.mpr hA
    have hkeys : (((p ++ [c]).filter (fun x => x.ativo)).map (fun x => x.categoria))
        = ((p.filter (fun x => x.ativo)).map (fun x => x.categoria)) := by
      simp [List.filter_append, List.filter_cons, hA2]
    rw [hkeys, ← hK]
    unfold catStepPagar
    rw [if_neg (by simp [hA2])]
    apply List.map_congr_left
    intro k hk
    have h := catFoldPagar_append p c k
    rw [if_neg (by simp [hA2])] at h
    rw [h]

/-- The left fold of catStepPagar computes the exact bucket map of the whole
processed list, for any processed prefix p. -/
theorem catStepPagar_foldl (l : List ContaPagar) :
    ∀ p : List ContaPagar,
      l.foldl catStepPagar
          ((keyList ((p.filter (fun x => x.ativo)).map (fun x => x.categoria))).map
            (fun k => (k, catFoldPagar p k)))
        = (keyList (((p ++ l).filter (fun x => x.ativo)).map (fun x => x.categoria))).map
            (fun k => (k, catFoldPagar (p ++ l) k)) := by
  induction l with
  | nil =>
    intro p
    simp
  | cons c rest ih =>
    intro p
    rw [List.foldl_cons, catStepPagar_step p c, ih (p ++ [c]), List.append_assoc]
    rfl

/-- The categorias_pagar block of the report: keys are the distinct categories
of the filtered active payables in first-occurrence order, and each bucket is
the float fold of its category. -/
theorem categorias_pagar_spec (s : Sistema) (d1 d2 : Option String) :
    (relatorio_financeiro s d1 d2).categorias_pagar
      = (keyList (((relFiltroPagar s d1 d2).filter (fun x => x.ativo)).map
          (fun x => x.categoria))).map
          (fun k => (k, catFoldPagar (relFiltroPagar s d1 d2) k)) := by
  have h := catStepPagar_foldl (relFiltroPagar s d1 d2) []
  simpa using h

/-- The float bucket that the per-category analysis of the report builds for
key k out of a record list: each field folds float addition over the amounts
of the active records of category k, the recebido field over the received ones, the
pendente field over the unreceived ones. -/
def catFoldReceber (l : List ContaReceber) (k : String) : CatReceberTot :=
  ⟨pyFloatSum ((l.filter (fun c => c.ativo && c.categoria == k)).map (fun c => c.valor)),
   pyFloatSum ((l.filter (fun c => c.ativo && (c.categoria == k && c.status == "recebido"))).map
     (fun c => c.valor)),
   pyFloatSum ((l.filter (fun c => c.ativo && (c.categoria == k && !(c.status == "recebido")))).map
     (fun c => c.valor))⟩

/-- Appending a record updates the bucket of its own category through
catUpdReceber and leaves every other bucket alone; an inactive record changes
nothing. -/
theorem catFoldReceber_append (p : List ContaReceber) (c : ContaReceber) (k : String) :
    catFoldReceber (p ++ [c]) k =
      if c.ativo && c.categoria == k then catUpdReceber (catFoldReceber p k) c
      else catFoldReceber p k := by
  by_cases hA : c.ativo = true
  · by_cases hk : (c.categoria == k) = true
    · rw [if_pos (by rw [hA, hk]; rfl)]
      by_cases hst : (c.status == "recebido") = true <;>
        simp [catFoldReceber, catUpdReceber, pyFloatSum, List.filter_append, List.filter_cons,
          hA, hk, hst, List.foldl_append]
    · have hk2 : (c.categoria == k) = false := Bool.eq_false_iff.mpr hk
      rw [if_neg (by simp [hk2])]
      simp [catFoldReceber, List.filter_append, List.filter_cons, hA, hk2]
  · have hA2 : c.ativo = false := Bool.eq_false_iff.mpr hA
    rw [if_neg (by simp [hA2])]
    simp [catFoldReceber, List.filter_append, List.filter_cons, hA2]

/-- A key absent from the active categories of a list has the zero bucket. -/
theorem catFoldReceber_absent (p : List ContaReceber) (k : String)
    (h : ∀ x ∈ p, ¬(x.ativo = true ∧ x.categoria = k)) :
    catFoldReceber p k = ⟨0, 0, 0⟩ := by
  have hnil : ∀ r : ContaReceber → Bool,
      p.filter (fun c => c.ativo && (c.categoria == k && r c)) = [] := by
    intro r
    rw [List.filter_eq_nil]
    intro a ha
    intro hcon
    rw [Bool.and_eq_true, Bool.and_eq_true, beq_iff_eq] at hcon
    exact h a ha ⟨hcon.1, hcon.2.1⟩
  have hnil2 : p.filter (fun c => c.ativo && c.categoria == k) = [] := by
    rw [List.filter_eq_nil]
    intro a ha hcon
    rw [Bool.and_eq_true, beq_iff_eq] at hcon
    exact h a ha ⟨hcon.1, hcon.2⟩
  rw [catFoldReceber, hnil2, hnil (fun c => c.status == "recebido"),
    hnil (fun c => !(c.status == "recebido"))]
  rfl

/-- One catStepReceber step preserves the bucket-map invariant: starting from
the exact bucket map of the processed prefix p, processing c yields the exact
bucket map of p ++ [c]. -/
theorem catStepReceber_step (p : List ContaReceber) (c : ContaReceber) :
    catStepReceber
        ((keyList ((p.filter (fun x => x.ativo)).map (fun x => x.categoria))).map
          (fun k => (k, catFoldReceber p k))) c
      = (keyList (((p ++ [c]).filter (fun x => x.ativo)).map (fun x => x.categoria))).map
          (fun k => (k, catFoldReceber (p ++ [c]) k)) := by
  set K := keyList ((p.filter (fun x => x.ativo)).map (fun x => x.categoria)) with hK
  by_cases hA : c.ativo = true
  · have hkeys : (((p ++ [c]).filter (fun x => x.ativo)).map (fun x => x.categoria))
        = ((p.filter (fun x => x.ativo)).map (fun x => x.categoria)) ++ [c.categoria] := by
      simp [List.filter_append, List.filter_cons, hA]
    rw [hkeys, keyList_append_one, ← hK]
    unfold catStepReceber
    rw [if_pos hA]
    by_cases hmem : c.categoria ∈ K
    · have hanyT : ((K.map (fun k => (k, catFoldReceber p k))).any
          (fun q => q.1 == c.categoria)) = true := by
        rw [List.any_eq_true]
        exact ⟨(c.categoria, catFoldReceber p c.categoria),
          List.mem_map_of_mem _ hmem, by simp⟩
      rw [if_pos hanyT]
      unfold addKey
      rw [if_pos hmem, List.map_map]
      apply List.map_congr_left
      intro k hk
      simp only [Function.comp]
      by_cases hck : (k == c.categoria) = true
      · have hkc : k = c.categoria := by simpa [beq_iff_eq] using hck
        subst hkc
        rw [if_pos (by simp)]
        have h := catFoldReceber_append p c c.categoria
        rw [if_pos (by simp [hA])] at h
        rw [h]
      · have hne : ¬ k = c.categoria := by simpa [beq_iff_eq] using hck
        rw [if_neg (by simpa [beq_iff_eq] using hne)]
        have hcf : (c.categoria == k) = false := by
          rw [beq_eq_false_iff_ne]
          intro he
          exact hne he.symm
        have h := catFoldReceber_append p c k
        rw [if_neg (by simp [hcf])] at h
        rw [h]
    · have hanyF : ((K.map (fun k => (k, catFoldReceber p k))).any
          (fun q => q.1 == c.categoria)) = false := by
        refine Bool.eq_false_iff.mpr ?_
        intro hcon
        rw [List.any_eq_true] at hcon
        obtain ⟨q, hqmem, hqeq⟩ := hcon
        rw [List.mem_map] at hqmem
        obtain ⟨k, hkK, rfl⟩ := hqmem
        have hke : k = c.categoria := by simpa [beq_iff_eq] using hqeq
        exact hmem (hke ▸ hkK)
      rw [if_neg (by simp [hanyF])]
      unfold addKey
      rw [if_neg hmem, List.map_append, List.map_append, List.map_map]
      have hpartA : (K.map ((fun q : String × CatReceberTot =>
            if q.1 == c.categoria then (q.1, catUpdReceber q.2 c) else q) ∘
            (fun k => (k, catFoldReceber p k))))
          = K.map (fun k => (k, catFoldReceber (p ++ [c]) k)) := by
        apply List.map_congr_left
        intro k hk
        simp only [Function.comp]
        have hne : ¬ k = c.categoria := by
          rintro rfl
          exact hmem hk
        rw [if_neg (by simpa [beq_iff_eq] using hne)]
        have hcf : (c.categoria == k) = false := by
          rw [beq_eq_false_iff_ne]
          intro he
          exact hne he.symm
        have h := catFoldReceber_append p c k
        rw [if_neg (by simp [hcf])] at h
        rw [h]
      have hzero : catFoldReceber p c.categoria = ⟨0, 0, 0⟩ := by
        apply catFoldReceber_absent
        intro x hx
        rintro ⟨hxa, hxc⟩
        apply hmem
        rw [hK, mem_keyList, List.mem_map]
        exact ⟨x, List.mem_filter.mpr ⟨hx, hxa⟩, hxc⟩
      have hpartB : ([(c.categoria, (⟨0, 0, 0⟩ : CatReceberTot))].map (fun q =>
            if q.1 == c.categoria then (q.1, catUpdReceber q.2 c) else q))
          = [(c.categoria, catFoldReceber (p ++ [c]) c.categoria)] := by
        simp only [List.map_cons, List.map_nil]
        rw [if_pos (by simp)]
        have h := catFoldReceber_append p c c.categoria
        rw [if_pos (by simp [hA])] at h
        rw [h, hzero]
      rw [hpartA, hpartB]
      simp only [List.map_cons, List.map_nil]
  · have hA2 : c.ativo = false := Bool.eq_false_iff.mpr hA
    have hkeys : (((p ++ [c]).filter (fun x => x.ativo)).map (fun x => x.categoria))
        = ((p.filter (fun x => x.ativo)).map (fun x => x.categoria)) := by
      simp [List.filter_append, List.filter_cons, hA2]
    rw [hkeys, ← hK]
    unfold catStepReceber
    rw [if_neg (by simp [hA2])]
    apply List.map_congr_left
    intro k hk
    have h := catFoldReceber_append p c k
    rw [if_neg (by simp [hA2])] at h
    rw [h]

/-- The left fold of catStepReceber computes the exact bucket map of the whole
processed list, for any processed prefix p. -/
theorem catStepReceber_foldl (l : List ContaReceber) :
    ∀ p : List ContaReceber,
      l.foldl catStepReceber
          ((keyList ((p.filter (fun x => x.ativo)).map (fun x => x.categoria))).map
            (fun k => (k, catFoldReceber p k)))
        = (keyList (((p ++ l).filter (fun x => x.ativo)).map (fun x => x.categoria))).map
            (fun k => (k, catFoldReceber (p ++ l) k)) := by
  induction l with
  | nil =>
    intro p
    simp
  | cons c rest ih =>
    intro p
    rw [List.foldl_cons, catStepReceber_step p c, ih (p ++ [c]), List.append_assoc]
    rfl

/-- The categorias_receber block of the report: keys are the distinct categories
of the filtered active payables in first-occurrence order, and each bucket is
the float fold of its category. -/
theorem categorias_receber_spec (s : Sistema) (d1 d2 : Option String) :
    (relatorio_financeiro s d1 d2).categorias_receber
      = (keyList (((relFiltroReceber s d1 d2).filter (fun x => x.ativo)).map
          (fun x => x.categoria))).map
          (fun k => (k, catFoldReceber (relFiltroReceber s d1 d2) k)) := by
  have h := catStepReceber_foldl (relFiltroReceber s d1 d2) []
  simpa using h

/-- A payable of 0.20 in category aluguel. -/
def cpC3b : ContaPagar :=
  { cpRent with id := "CP002", categoria := "aluguel", valor := pyFloat 2 (-1) }

/-- A payable of 0.30 in category aluguel. -/
def cpC3c : ContaPagar :=
  { cpRent with id := "CP003", categoria := "aluguel", valor := pyFloat 3 (-1) }

set_option maxRecDepth 100000 in
/-- C3 counterexample: for a store with payables 0.10 (outros), 0.20 and 0.30
(aluguel) and the unbounded range, the reported per-category total subtotals
sum (exactly) to a value different from the reported grand total_pagar: the
grand total folds 0.1 + 0.2 first, the aluguel bucket folds 0.2 + 0.3, and
binary64 rounding of the two groupings differs. -/
theorem C3_counterexample :
    (((relatorio_financeiro ⟨[cpDimeA, cpC3b, cpC3c], [], catPagarPadrao, catReceberPadrao⟩
          none none).categorias_pagar).map (fun e => e.2.total)).sum
      ≠ (relatorio_financeiro ⟨[cpDimeA, cpC3b, cpC3c], [], catPagarPadrao, catReceberPadrao⟩
          none none).resumo.total_pagar := by
  decide

/-- C3 corrected: the reported category buckets are keyed by the distinct
categories of the period-filtered active records in first-occurrence order,
each bucket folding float addition over exactly its category members — so in
exact arithmetic the per-category amounts partition the filtered amounts and
the subtotal sums equal the grand sums (stated below for the total, liquidada
and pending groups of both collections); but the reported float subtotals
need not sum to the reported float grand totals, because binary64 addition is
not associative (see C3_counterexample). -/
theorem C3_subtotals_partition (s : Sistema) (d1 d2 : Option String) :
    ((relatorio_financeiro s d1 d2).categorias_pagar
        = (keyList (((relFiltroPagar s d1 d2).filter (fun x => x.ativo)).map
            (fun x => x.categoria))).map
            (fun k => (k, catFoldPagar (relFiltroPagar s d1 d2) k)) ∧
      (relatorio_financeiro s d1 d2).categorias_receber
        = (keyList (((relFiltroReceber s d1 d2).filter (fun x => x.ativo)).map
            (fun x => x.categoria))).map
            (fun k => (k, catFoldReceber (relFiltroReceber s d1 d2) k))) ∧
    (((relatorio_financeiro s d1 d2).categorias_pagar).map (fun e =>
        (((relFiltroPagar s d1 d2).filter (fun x => x.ativo && x.categoria == e.1)).map
          (fun x => x.valor)).sum)).sum
      = (((relFiltroPagar s d1 d2).filter (fun x => x.ativo)).map (fun x => x.valor)).sum ∧
    (((relatorio_financeiro s d1 d2).categorias_pagar).map (fun e =>
        (((relFiltroPagar s d1 d2).filter (fun x =>
            x.ativo && (x.categoria == e.1 && x.status == "pago"))).map
          (fun x => x.valor)).sum)).sum
      = (((relFiltroPagar s d1 d2).filter (fun x => x.ativo && x.status == "pago")).map
          (fun x => x.valor)).sum ∧
    (((relatorio_financeiro s d1 d2).categorias_pagar).map (fun e =>
        (((relFiltroPagar s d1 d2).filter (fun x =>
            x.ativo && (x.categoria == e.1 && !(x.status == "pago")))).map
          (fun x => x.valor)).sum)).sum
      = (((relFiltroPagar s d1 d2).filter (fun x => x.ativo && !(x.status == "pago"))).map
          (fun x => x.valor)).sum ∧
    (((relatorio_financeiro s d1 d2).categorias_receber).map (fun e =>
        (((relFiltroReceber s d1 d2).filter (fun x => x.ativo && x.categoria == e.1)).map
          (fun x => x.valor)).sum)).sum
      = (((relFiltroReceber s d1 d2).filter (fun x => x.ativo)).map (fun x => x.valor)).sum ∧
    (((relatorio_financeiro s d1 d2).categorias_receber).map (fun e =>
        (((relFiltroReceber s d1 d2).filter (fun x =>
            x.ativo && (x.categoria == e.1 && x.status == "recebido"))).map
          (fun x => x.valor)).sum)).sum
      = (((relFiltroReceber s d1 d2).filter (fun x => x.ativo && x.status == "recebido")).map
          (fun x => x.valor)).sum ∧
    (((relatorio_financeiro s d1 d2).categorias_receber).map (fun e =>
        (((relFiltroReceber s d1 d2).filter (fun x =>
            x.ativo && (x.categoria == e.1 && !(x.status == "recebido")))).map
          (fun x => x.valor)).sum)).sum
      = (((relFiltroReceber s d1 d2).filter (fun x => x.ativo && !(x.status == "recebido"))).map
          (fun x => x.valor)).sum := by
  have hp := categorias_pagar_spec s d1 d2
  have hr := categorias_receber_spec s d1 d2
  set F := relFiltroPagar s d1 d2 with hF
  set G := relFiltroReceber s d1 d2 with hG
  set K := keyList ((F.filter (fun x => x.ativo)).map (fun x => x.categoria)) with hKdef
  set L := keyList ((G.filter (fun x => x.ativo)).map (fun x => x.categoria)) with hLdef
  have hKnd : K.Nodup := keyList_nodup _
  have hLnd : L.Nodup := keyList_nodup _
  have hKcov : ∀ x ∈ F.filter (fun x => x.ativo), x.categoria ∈ K := by
    intro x hx
    rw [hKdef, mem_keyList]
    exact List.mem_map_of_mem _ hx
  have hLcov : ∀ x ∈ G.filter (fun x => x.ativo), x.categoria ∈ L := by
    intro x hx
    rw [hLdef, mem_keyList]
    exact List.mem_map_of_mem _ hx
  refine ⟨⟨hp, hr⟩, ?_, ?_, ?_, ?_, ?_, ?_⟩
  · rw [hp, List.map_map]
    rw [show ((fun e : String × CatPagarTot =>
        ((F.filter (fun x => x.ativo && x.categoria == e.1)).map (fun x => x.valor)).sum) ∘
        (fun k => (k, catFoldPagar F k)))
      = (fun k => ((F.filter (fun x => x.ativo && x.categoria == k)).map
          (fun x => x.valor)).sum) from rfl]
    have hfa : ∀ k, F.filter (fun x => x.ativo && x.categoria == k)
        = (F.filter (fun x => x.ativo)).filter (fun x => x.categoria == k) :=
      fun k => filter_and _ _ F
    rw [List.map_congr_left (fun k _ => by rw [hfa k])]
    exact sum_groups (fun x => x.categoria) (fun x => x.valor) K hKnd
      (F.filter (fun x => x.ativo)) hKcov
  · rw [hp, List.map_map]
    have hfa : ∀ k, F.filter (fun x => x.ativo && (x.categoria == k && x.status == "pago"))
        = (F.filter (fun x => x.ativo && x.status == "pago")).filter
            (fun x => x.categoria == k) :=
      fun k => filter_and3 _ _ _ F
    rw [List.map_congr_left (fun k _ => by rw [show ((fun e : String × CatPagarTot =>
        ((F.filter (fun x => x.ativo && (x.categoria == e.1 && x.status == "pago"))).map
          (fun x => x.valor)).sum) ∘ (fun k2 => (k2, catFoldPagar F k2))) k
      = ((F.filter (fun x => x.ativo && (x.categoria == k && x.status == "pago"))).map
          (fun x => x.valor)).sum from rfl, hfa k])]
    refine sum_groups (fun x => x.categoria) (fun x => x.valor) K hKnd
      (F.filter (fun x => x.ativo && x.status == "pago")) ?_
    intro x hx
    rw [List.mem_filter, Bool.and_eq_true] at hx
    exact hKcov x (List.mem_filter.mpr ⟨hx.1, hx.2.1⟩)
  · rw [hp, List.map_map]
    have hfa : ∀ k, F.filter (fun x => x.ativo && (x.categoria == k && !(x.status == "pago")))
        = (F.filter (fun x => x.ativo && !(x.status == "pago"))).filter
            (fun x => x.categoria == k) :=
      fun k => filter_and3 _ _ _ F
    rw [List.map_congr_left (fun k _ => by rw [show ((fun e : String × CatPagarTot =>
        ((F.filter (fun x => x.ativo && (x.categoria == e.1 && !(x.status == "pago")))).map
          (fun x => x.valor)).sum) ∘ (fun k2 => (k2, catFoldPagar F k2))) k
      = ((F.filter (fun x => x.ativo && (x.categoria == k && !(x.status == "pago")))).map
          (fun x => x.valor)).sum from rfl, hfa k])]
    refine sum_groups (fun x => x.categoria) (fun x => x.valor) K hKnd
      (F.filter (fun x => x.ativo && !(x.status == "pago"))) ?_
    intro x hx
    rw [List.mem_filter, Bool.and_eq_true] at hx
    exact hKcov x (List.mem_filter.mpr ⟨hx.1, hx.2.1⟩)
  · rw [hr, List.map_map]
    rw [show ((fun e : String × CatReceberTot =>
        ((G.filter (fun x => x.ativo && x.categoria == e.1)).map (fun x => x.valor)).sum) ∘
        (fun k => (k, catFoldReceber G k)))
      = (fun k => ((G.filter (fun x => x.ativo && x.categoria == k)).map
          (fun x => x.valor)).sum) from rfl]
    have hfa : ∀ k, G.filter (fun x => x.ativo && x.categoria == k)
        = (G.filter (fun x => x.ativo)).filter (fun x => x.categoria == k) :=
      fun k => filter_and _ _ G
    rw [List.map_congr_left (fun k _ => by rw [hfa k])]
    exact sum_groups (fun x => x.categoria) (fun x => x.valor) L hLnd
      (G.filter (fun x => x.ativo)) hLcov
  · rw [hr, List.map_map]
    have hfa : ∀ k, G.filter (fun x => x.ativo && (x.categoria == k && x.status == "recebido"))
        = (G.filter (fun x => x.ativo && x.status == "recebido")).filter
            (fun x => x.categoria == k) :=
      fun k => filter_and3 _ _ _ G
    rw [List.map_congr_left (fun k _ => by rw [show ((fun e : String × CatReceberTot =>
        ((G.filter (fun x => x.ativo && (x.categoria == e.1 && x.status == "recebido"))).map
          (fun x => x.valor)).sum) ∘ (fun k2 => (k2, catFoldReceber G k2))) k
      = ((G.filter (fun x => x.ativo && (x.categoria == k && x.status == "recebido"))).map
          (fun x => x.valor)).sum from rfl, hfa k])]
    refine sum_groups (fun x => x.categoria) (fun x => x.valor) L hLnd
      (G.filter (fun x => x.ativo && x.status == "recebido")) ?_
    intro x hx
    rw [List.mem_filter, Bool.and_eq_true] at hx
    exact hLcov x (List.mem_filter.mpr ⟨hx.1, hx.2.1⟩)
  · rw [hr, List.map_map]
    have hfa : ∀ k,
        G.filter (fun x => x.ativo && (x.categoria == k && !(x.status == "recebido")))
        = (G.filter (fun x => x.ativo && !(x.status == "recebido"))).filter
            (fun x => x.categoria == k) :=
      fun k => filter_and3 _ _ _ G
    rw [List.map_congr_left (fun k _ => by rw [show ((fun e : String × CatReceberTot =>
        ((G.filter (fun x => x.ativo && (x.categoria == e.1 && !(x.status == "recebido")))).map
          (fun x => x.valor)).sum) ∘ (fun k2 => (k2, catFoldReceber G k2))) k
      = ((G.filter (fun x => x.ativo && (x.categoria == k && !(x.status == "recebido")))).map
          (fun x => x.valor)).sum from rfl, hfa k])]
    refine sum_groups (fun x => x.categoria) (fun x => x.valor) L hLnd
      (G.filter (fun x => x.ativo && !(x.status == "recebido"))) ?_
    intro x hx
    rw [List.mem_filter, Bool.and_eq_true] at hx
    exact hLcov x (List.mem_filter.mpr ⟨hx.1, hx.2.1⟩)

/- ----------------------------------------------------------------- -/
/- C5: the daily cash flow.                                           -/
/- ----------------------------------------------------------------- -/

/-- A sum of decimal readbacks of cent amounts is a cent amount bounded by
the list length times the largest allowed amount. -/
theorem sum_cent (l : List ℤ)
    (hm : ∀ v ∈ l, ∃ m : ℕ, 1 ≤ m ∧ (m : ℤ) ≤ 10 ^ 15 ∧ decRead v = (m : ℤ) * centUnit) :
    ∃ M : ℤ, 0 ≤ M ∧ M ≤ (l.length : ℤ) * 10 ^ 15 ∧ (l.map decRead).sum = M * centUnit := by
  induction l with
  | nil => exact ⟨0, le_rfl, by simp, by simp⟩
  | cons v rest ih =>
    obtain ⟨m, hm1, hm15, hmv⟩ := hm v (List.mem_cons_self _ _)
    obtain ⟨M, hM0, hMb, hMs⟩ := ih (fun w hw => hm w (List.mem_cons_of_mem _ hw))
    refine ⟨(m : ℤ) + M, by omega, ?_, ?_⟩
    · simp only [List.length_cons]
      push_cast
      nlinarith
    · simp only [List.map_cons, List.sum_cons, hmv, hMs]
      ring

/-- The Decimal accumulation of the cash-flow functions equals the exact sum
of the decimal readbacks whenever every amount is a whole number of cents
between one cent and ten billion currency units and the list holds at most a
billion records. -/
theorem decSumValores_exact (l : List ℤ)
    (hm : ∀ v ∈ l, ∃ m : ℕ, 1 ≤ m ∧ (m : ℤ) ≤ 10 ^ 15 ∧ decRead v = (m : ℤ) * centUnit)
    (hlen : (l.length : ℤ) ≤ 10 ^ 9) :
    decSumValores l = (l.map decRead).sum := by
  have hb : (0 : ℤ) + (l.length : ℤ) * 10 ^ 15 ≤ 10 ^ 27 := by
    have hx : (l.length : ℤ) * 10 ^ 15 ≤ 10 ^ 9 * 10 ^ 15 :=
      mul_le_mul_of_nonneg_right hlen (by norm_num)
    norm_num at hx ⊢
    linarith
  have h := foldl_decAdd_exact l 0 le_rfl hm hb
  simpa [decSumValores, zero_mul] using h

set_option maxRecDepth 40000 in
/-- C5 confirmed: for a valid date the daily cash flow succeeds; the inflow
list is exactly the active received receivables settled on that date and the
outflow list exactly the active paid payables paid on that date; the Decimal
inflow and outflow totals equal the exact sums of the decimal readbacks of
the member amounts — no rounding drift — and the Decimal day balance is their
exact difference.  The drift-freedom hypotheses: every stored amount reads
back as a whole number of cents between 0.01 and 10^13 currency units, and
each collection holds at most 10^9 records. -/
theorem C5_daily_cash_flow (s : Sistema) (data : String)
    (hd : validar_data data = true)
    (hcr : ∀ c ∈ s.contas_receber, ∃ m : ℕ, 1 ≤ m ∧ (m : ℤ) ≤ 10 ^ 15 ∧
      decRead c.valor = (m : ℤ) * centUnit)
    (hcp : ∀ c ∈ s.contas_pagar, ∃ m : ℕ, 1 ≤ m ∧ (m : ℤ) ≤ 10 ^ 15 ∧
      decRead c.valor = (m : ℤ) * centUnit)
    (hlr : (s.contas_receber.length : ℤ) ≤ 10 ^ 9)
    (hlp : (s.contas_pagar.length : ℤ) ≤ 10 ^ 9) :
    ∃ r : FluxoDia,
      fluxo_caixa_diario s data = FluxoDiaRes.ok r ∧
      r.entradas = s.contas_receber.filter (fun c =>
        c.ativo && c.status == "recebido" && c.data_recebimento == some data) ∧
      r.saidas = s.contas_pagar.filter (fun c =>
        c.ativo && c.status == "pago" && c.data_pagamento == some data) ∧
      r.qtd_entradas = r.entradas.length ∧
      r.qtd_saidas = r.saidas.length ∧
      r.total_entradas_dec = (r.entradas.map (fun c => decRead c.valor)).sum ∧
      r.total_saidas_dec = (r.saidas.map (fun c => decRead c.valor)).sum ∧
      r.saldo_dia_dec = r.total_entradas_dec - r.total_saidas_dec := by
  set E := s.contas_receber.filter (fun c =>
    c.ativo && c.status == "recebido" && c.data_recebimento == some data) with hEdef
  set S := s.contas_pagar.filter (fun c =>
    c.ativo && c.status == "pago" && c.data_pagamento == some data) with hSdef
  have hEm : ∀ v ∈ E.map (fun c => c.valor), ∃ m : ℕ, 1 ≤ m ∧ (m : ℤ) ≤ 10 ^ 15 ∧
      decRead v = (m : ℤ) * centUnit := by
    intro v hv
    rw [List.mem_map] at hv
    obtain ⟨c, hc, rfl⟩ := hv
    exact hcr c (List.mem_of_mem_filter hc)
  have hSm : ∀ v ∈ S.map (fun c => c.valor), ∃ m : ℕ, 1 ≤ m ∧ (m : ℤ) ≤ 10 ^ 15 ∧
      decRead v = (m : ℤ) * centUnit := by
    intro v hv
    rw [List.mem_map] at hv
    obtain ⟨c, hc, rfl⟩ := hv
    exact hcp c (List.mem_of_mem_filter hc)
  have hElen : (((E.map (fun c => c.valor)).length : ℕ) : ℤ) ≤ 10 ^ 9 := by
    rw [List.length_map]
    calc ((E.length : ℕ) : ℤ) ≤ ((s.contas_receber.length : ℕ) : ℤ) := by
          exact_mod_cast List.length_filter_le _ _
      _ ≤ 10 ^ 9 := hlr
  have hSlen : (((S.map (fun c => c.valor)).length : ℕ) : ℤ) ≤ 10 ^ 9 := by
    rw [List.length_map]
    calc ((S.length : ℕ) : ℤ) ≤ ((s.contas_pagar.length : ℕ) : ℤ) := by
          exact_mod_cast List.length_filter_le _ _
      _ ≤ 10 ^ 9 := hlp
  have hE := decSumValores_exact (E.map (fun c => c.valor)) hEm hElen
  have hS := decSumValores_exact (S.map (fun c => c.valor)) hSm hSlen
  rw [List.map_map] at hE hS
  obtain ⟨ME, hME0, hMEb, hMEs⟩ := sum_cent (E.map (fun c => c.valor)) hEm
  obtain ⟨MS, hMS0, hMSb, hMSs⟩ := sum_cent (S.map (fun c => c.valor)) hSm
  rw [List.map_map] at hMEs hMSs
  have htE : decSumValores (E.map (fun c => c.valor)) = ME * centUnit := hE.trans hMEs
  have htS : decSumValores (S.map (fun c => c.valor)) = MS * centUnit := hS.trans hMSs
  have hMEup : ME < 10 ^ 28 := by
    have h1 : ((E.length : ℕ) : ℤ) * 10 ^ 15 ≤ 10 ^ 9 * 10 ^ 15 := by
      apply mul_le_mul_of_nonneg_right _ (by norm_num)
      rw [List.length_map] at hElen
      exact hElen
    have h2 : (10 : ℤ) ^ 9 * 10 ^ 15 < 10 ^ 28 := by norm_num
    rw [List.length_map] at hMEb
    linarith
  have hMSup : MS < 10 ^ 28 := by
    have h1 : ((S.length : ℕ) : ℤ) * 10 ^ 15 ≤ 10 ^ 9 * 10 ^ 15 := by
      apply mul_le_mul_of_nonneg_right _ (by norm_num)
      rw [List.length_map] at hSlen
      exact hSlen
    have h2 : (10 : ℤ) ^ 9 * 10 ^ 15 < 10 ^ 28 := by norm_num
    rw [List.length_map] at hMSb
    linarith
  unfold fluxo_caixa_diario
  rw [if_neg (by simp [hd])]
  refine ⟨_, rfl, rfl, rfl, rfl, rfl, ?_, ?_, ?_⟩
  · show decSumValores (E.map (fun c => c.valor)) = (E.map (fun c => decRead c.valor)).sum
    exact hE
  · show decSumValores (S.map (fun c => c.valor)) = (S.map (fun c => decRead c.valor)).sum
    exact hS
  · show decSub (decSumValores (E.map (fun c => c.valor)))
        (decSumValores (S.map (fun c => c.valor)))
      = decSumValores (E.map (fun c => c.valor)) - decSumValores (S.map (fun c => c.valor))
    rw [htE, htS, decSub_cent ME MS hMEup hMSup hME0 hMS0]
    ring

/-- A receivable of 0.10 received on 2024-03-10. -/
def crDimeA : ContaReceber :=
  { crSale with id := "CR001", valor := pyFloat 1 (-1), status := "recebido", data_recebimento := some "2024-03-10" }

/-- A receivable of 0.20 received on 2024-03-10. -/
def crDimeB : ContaReceber :=
  { crSale with id := "CR002", valor := pyFloat 2 (-1), status := "recebido", data_recebimento := some "2024-03-10" }

set_option maxRecDepth 100000 in
/-- Witness for C5: the store holding the 0.10 and 0.20 receivables received
on 2024-03-10 and no payables. -/
theorem C5_witness :
    ∃ r : FluxoDia,
      fluxo_caixa_diario ⟨[], [crDimeA, crDimeB], catPagarPadrao, catReceberPadrao⟩
          "2024-03-10" = FluxoDiaRes.ok r ∧
      r.entradas = (Sistema.mk [] [crDimeA, crDimeB] catPagarPadrao
          catReceberPadrao).contas_receber.filter (fun c =>
        c.ativo && c.status == "recebido" && c.data_recebimento == some "2024-03-10") ∧
      r.saidas = (Sistema.mk [] [crDimeA, crDimeB] catPagarPadrao
          catReceberPadrao).contas_pagar.filter (fun c =>
        c.ativo && c.status == "pago" && c.data_pagamento == some "2024-03-10") ∧
      r.qtd_entradas = r.entradas.length ∧
      r.qtd_saidas = r.saidas.length ∧
      r.total_entradas_dec = (r.entradas.map (fun c => decRead c.valor)).sum ∧
      r.total_saidas_dec = (r.saidas.map (fun c => decRead c.valor)).sum ∧
      r.saldo_dia_dec = r.total_entradas_dec - r.total_saidas_dec := by
  refine C5_daily_cash_flow
    ⟨[], [crDimeA, crDimeB], catPagarPadrao, catReceberPadrao⟩ "2024-03-10"
    (by decide) ?_ ?_ (by decide) (by decide)
  · intro c hc
    rw [List.mem_cons, List.mem_cons] at hc
    rcases hc with rfl | rfl | hc
    · exact ⟨10, by norm_num, by norm_num, by decide⟩
    · exact ⟨20, by norm_num, by norm_num, by decide⟩
    · cases hc
  · intro c hc
    cases hc

end SGC
